import Mathlib

/- Verification model of the QuizBot repository (src/main.py, with the
   engine-identical variant src/main_contact_fixed4_fixed_v3.py).

   Python strings are modelled as `List Char`, SQLite rows as structures,
   and NULL-able columns as `Option`.  All definitions are translated
   directly from the source; external effects (Telegram sends, the asyncio
   timer) are modelled by explicit outcome parameters and a scheduled-task
   list, as noted at each definition. -/

namespace QuizBot

/-- Whitespace test used to model Python `str.strip` / `str.isspace`. -/
def isSpace (c : Char) : Bool := c.isWhitespace

/-- Model of Python `s.strip()`: drop whitespace from both ends. -/
def pyStrip (s : List Char) : List Char :=
  ((s.dropWhile isSpace).reverse.dropWhile isSpace).reverse

/-- The ellipsis marker that `_truncate` appends to a cut string. -/
def ellipsisChar : Char := '…'

/-- Model of `_truncate(s, n)` (src/main.py line 240): a string of length
    at most `n` is returned unchanged, a longer one is cut to `n-1`
    characters with the ellipsis marker appended. -/
def _truncate (s : List Char) (n : Nat) : List Char :=
  if s.length ≤ n then s else s.take (n - 1) ++ [ellipsisChar]

/-- First-seen-order deduplication, generalised over the set of already
    seen options (the `seen` accumulator of the Python loop). -/
def dedupeAux (seen : List (List Char)) : List (List Char) → List (List Char)
  | [] => []
  | o :: rest =>
    if o ∈ seen then dedupeAux seen rest
    else o :: dedupeAux (o :: seen) rest

/-- The deduplication performed by the `seen`/`opts` loop of
    `sanitize_for_poll`: keep the first occurrence of each option. -/
def dedupe (l : List (List Char)) : List (List Char) := dedupeAux [] l

/-- Successful result of `sanitize_for_poll`. -/
structure Sanitized where
  question : List Char
  options : List (List Char)
  explanation : Option (List Char)
deriving DecidableEq

/-- Model of `sanitize_for_poll(question, options, explanation)`
    (src/main.py lines 245-261).  Steps, in source order: normalise a
    falsy explanation to `None`; truncate every option to 100 chars; drop
    options whose `strip()` is empty and deduplicate first-seen; cap at 10
    options; error when fewer than 2 remain; truncate the explanation to
    200 chars; strip and truncate the question to 292 chars.  The raised
    `ValueError` is modelled as `Except.error`. -/
def sanitize_for_poll (question : List Char) (options : List (List Char))
    (explanation : Option (List Char)) : Except Unit Sanitized :=
  let expl0 : Option (List Char) :=
    match explanation with
    | some e => if e = [] then none else some e
    | none => none
  let truncated := options.map (fun o => _truncate o 100)
  let opts := dedupe (truncated.filter (fun o => !(pyStrip o).isEmpty))
  let capped := opts.take 10
  if capped.length < 2 then Except.error ()
  else
    Except.ok
      { question := _truncate (pyStrip question) 292
        options := capped
        explanation := expl0.map (fun e => _truncate e 200) }

/-! ## Session engine

The SQLite tables `sessions`, `session_items`, `active_polls` and
`quizzes` are modelled as lists of rows; `AUTOINCREMENT` primary keys as
explicit counters.  The poll ids handed out by Telegram are opaque fresh
tokens, modelled as naturals supplied from outside; an outbound send that
can raise is modelled by a `SendOutcome` parameter (`fail` = the send
raised, so the surrounding `try/except` leaves the database untouched).
The `asyncio.create_task(timeout_fallback(...))` calls are modelled by a
list of scheduled `(session_id, poll_id)` timer tasks. -/

inductive SState where
  | running
  | stopped
  | finished
deriving DecidableEq

/-- A row of the `sessions` table. -/
structure Session where
  id : Nat
  user_id : Nat
  chat_id : Nat
  total : Nat
  open_period : Nat
  started_at : Nat
  finished_at : Option Nat
  state : SState
  current_index : Nat
deriving DecidableEq

/-- A row of the `session_items` table.  `poll_id` is `none` for the
    initial `""` placeholder (real transport ids never compare equal to
    it); `chosen`/`is_correct`/`closed_at` are NULL until resolution.
    The engine never reads `message_id`, so it is not modelled. -/
structure SessionItem where
  id : Nat
  session_id : Nat
  quiz_id : Nat
  poll_id : Option Nat
  sent_at : Option Nat
  chosen : Option Int
  is_correct : Option Nat
  closed_at : Option Nat
  idx : Nat
deriving DecidableEq

/-- A row of the `quizzes` table (`options_json` decoded to a list). -/
structure Quiz where
  id : Nat
  question : List Char
  options : List (List Char)
  correct : Int
  explanation : Option (List Char)
  subject : Nat
  chapter : Nat
deriving DecidableEq

/-- A row of the `active_polls` table (PRIMARY KEY `poll_id`). -/
structure ActivePoll where
  poll_id : Nat
  session_id : Nat
  user_id : Nat
deriving DecidableEq

/-- The mutable state: the four engine tables, the scheduled timeout
    tasks, and the AUTOINCREMENT counters of `sessions`/`session_items`. -/
structure DB where
  quizzes : List Quiz
  sessions : List Session
  items : List SessionItem
  active_polls : List ActivePoll
  timeouts : List (Nat × Nat)
  nextSessionId : Nat
  nextItemId : Nat
deriving DecidableEq

/-- `SELECT * FROM active_polls WHERE poll_id=?` (fetchone). -/
def lookupActive (db : DB) (pid : Nat) : Option ActivePoll :=
  db.active_polls.find? (fun r => decide (r.poll_id = pid))

/-- `SELECT * FROM session_items WHERE session_id=? AND poll_id=?`. -/
def findItemByPoll (db : DB) (sid pid : Nat) : Option SessionItem :=
  db.items.find? (fun it => decide (it.session_id = sid ∧ it.poll_id = some pid))

/-- `SELECT * FROM sessions WHERE id=?`. -/
def findSession (db : DB) (sid : Nat) : Option Session :=
  db.sessions.find? (fun s => decide (s.id = sid))

/-- `SELECT * FROM quizzes WHERE id=?`. -/
def findQuiz (db : DB) (qid : Nat) : Option Quiz :=
  db.quizzes.find? (fun qz => decide (qz.id = qid))

/-- `DELETE FROM active_polls WHERE poll_id=?`. -/
def eraseActive (db : DB) (pid : Nat) : DB :=
  { db with active_polls :=
      db.active_polls.filter (fun r => decide (r.poll_id ≠ pid)) }

/-- `UPDATE session_items SET ... WHERE id=?`. -/
def updateItem (db : DB) (iid : Nat) (f : SessionItem → SessionItem) : DB :=
  { db with items := db.items.map (fun it => if it.id = iid then f it else it) }

/-- `UPDATE sessions SET ... WHERE id=?`. -/
def updateSession (db : DB) (sid : Nat) (f : Session → Session) : DB :=
  { db with sessions := db.sessions.map (fun s => if s.id = sid then f s else s) }

/-- `UPDATE sessions SET current_index=current_index+1 WHERE id=?`. -/
def bumpIndex (db : DB) (sid : Nat) : DB :=
  updateSession db sid (fun s => { s with current_index := s.current_index + 1 })

/-- `INSERT OR REPLACE INTO active_polls(...)`: any row with the same
    primary key is replaced. -/
def insertActive (db : DB) (row : ActivePoll) : DB :=
  { db with active_polls :=
      row :: db.active_polls.filter (fun r => decide (r.poll_id ≠ row.poll_id)) }

/-- Outcome of one outbound Telegram send: `fail` models a raised
    transport exception (caught by the source's `try/except`), `ok pid`
    a successful send whose poll got transport id `pid`. -/
inductive SendOutcome where
  | fail
  | ok (pid : Nat)
deriving DecidableEq

/-- Messages the engine emits to the chat (only the ones with engine
    significance: the outbound poll and the final summary). -/
inductive Msg where
  | pollMsg (pid : Nat)
  | summary (tot correct wrong : Nat) (missed : Int)
deriving DecidableEq

/-- `SELECT * FROM session_items WHERE session_id=? ORDER BY idx`. -/
def sortedItems (db : DB) (sid : Nat) : List SessionItem :=
  List.insertionSort (fun a b => a.idx ≤ b.idx)
    (db.items.filter (fun it => decide (it.session_id = sid)))

/-- `it["chosen"] is not None and it["chosen"] >= 0`. -/
def isAnswered (it : SessionItem) : Bool :=
  match it.chosen with
  | some c => decide (0 ≤ c)
  | none => false

/-- `sum(1 for it in items if it["is_correct"] == 1)`. -/
def countCorrect (l : List SessionItem) : Nat :=
  l.countP (fun it => decide (it.is_correct = some 1))

/-- `sum(1 for it in items if chosen is not None and chosen >= 0 and
    is_correct == 0)`. -/
def countWrong (l : List SessionItem) : Nat :=
  l.countP (fun it => isAnswered it && decide (it.is_correct = some 0))

/-- `sum(1 for it in items if chosen is not None and chosen >= 0)` —
    the `answered` count of the specification. -/
def countAnswered (l : List SessionItem) : Nat :=
  l.countP isAnswered

/-- `send_next_quiz(bot, session_id)` (src/main.py lines 426-504).
    Looks up the session and returns unchanged unless it is `running`.
    With the cursor past the end of the item list it computes the summary
    counts, sends the summary and marks the session finished (a failed
    summary send raises before the UPDATE, leaving the state untouched).
    Otherwise it sanitizes the current question and sends it as a poll;
    on success it stores the transport id on the item, registers the
    active-poll row, and schedules a timeout task for timed sessions.
    Any exception (missing quiz row, sanitizer error, failed send) is
    caught by the surrounding `try/except` before any write. -/
def send_next_quiz (db : DB) (session_id now : Nat) (out : SendOutcome) :
    DB × List Msg :=
  match findSession db session_id with
  | none => (db, [])
  | some srow =>
    if srow.state ≠ SState.running then (db, [])
    else
      let items := sortedItems db session_id
      if h : srow.current_index < items.length then
        let it := items[srow.current_index]
        match findQuiz db it.quiz_id with
        | none => (db, [])
        | some qrow =>
          match sanitize_for_poll qrow.question qrow.options qrow.explanation with
          | Except.error _ => (db, [])
          | Except.ok _ =>
            match out with
            | SendOutcome.fail => (db, [])
            | SendOutcome.ok pid =>
              let db1 := updateItem db it.id
                (fun x => { x with poll_id := some pid, sent_at := some now })
              let db2 := insertActive db1 ⟨pid, session_id, srow.user_id⟩
              let db3 := if 0 < srow.open_period
                then { db2 with timeouts := (session_id, pid) :: db2.timeouts }
                else db2
              (db3, [Msg.pollMsg pid])
      else
        match out with
        | SendOutcome.fail => (db, [])
        | SendOutcome.ok _ =>
          let tot := items.length
          let correct := countCorrect items
          let wrong := countWrong items
          let missed : Int := (tot : Int) - (correct : Int) - (wrong : Int)
          (updateSession db session_id
            (fun s => { s with state := SState.finished, finished_at := some now }),
           [Msg.summary tot correct wrong missed])

/-- `ok = 1 if chosen is not None and int(chosen) == int(quiz["correct"])
    else 0` from `poll_answer`. -/
def okFlag (chosen : Option Nat) (correct : Int) : Nat :=
  match chosen with
  | some c => if (c : Int) = correct then 1 else 0
  | none => 0

/-- The item update of `poll_answer`:
    `UPDATE session_items SET chosen=?, is_correct=?, closed_at=?`. -/
def answerUpd (chosen : Option Nat) (correct : Int) (now : Nat) :
    SessionItem → SessionItem :=
  fun it => { it with chosen := chosen.map (fun c => (c : Int)),
                      is_correct := some (okFlag chosen correct),
                      closed_at := some now }

/-- The item update of `timeout_fallback`: the `-1` no-answer sentinel. -/
def timeoutUpd (now : Nat) : SessionItem → SessionItem :=
  fun it => { it with chosen := some (-1), is_correct := some 0,
                      closed_at := some now }

/-- The database mutations of `poll_answer` (src/main.py lines 566-590),
    without the tail call to `send_next_quiz`.  Returns the session id to
    advance (`none` when `send_next_quiz` is not called).  `chosen` is
    `ans.option_ids[0] if ans.option_ids else None`.  A missing quiz row
    would raise before the first UPDATE, so that branch changes nothing. -/
def pollAnswerStep (db : DB) (pid : Nat) (chosen : Option Nat) (now : Nat) :
    DB × Option Nat :=
  match lookupActive db pid with
  | none => (db, none)
  | some row =>
    match findItemByPoll db row.session_id pid with
    | none => (db, none)
    | some item =>
      match findQuiz db item.quiz_id with
      | none => (db, none)
      | some quiz =>
        let db1 := updateItem db item.id (answerUpd chosen quiz.correct now)
        let db2 := eraseActive db1 pid
        match findSession db2 row.session_id with
        | none => (db2, none)
        | some srow =>
          if 0 < srow.open_period ∨ chosen.isSome
          then (bumpIndex db2 row.session_id, some row.session_id)
          else (db2, none)

/-- `poll_answer` handler: the database mutations followed by the tail
    call `await send_next_quiz(...)` when the cursor was advanced. -/
def poll_answer (db : DB) (pid : Nat) (chosen : Option Nat) (now : Nat)
    (out : SendOutcome) : DB × List Msg :=
  match pollAnswerStep db pid chosen now with
  | (db1, some sid) => send_next_quiz db1 sid now out
  | (db1, none) => (db1, [])

/-- The database mutations of `timeout_fallback` (src/main.py lines
    409-424), after the sleep and without the tail `send_next_quiz`:
    return unchanged when the active-poll row is gone, otherwise write the
    `-1` sentinel on the matching item (if any), delete the row and bump
    the cursor of the session id the task was scheduled with. -/
def timeoutStep (db : DB) (session_id pid now : Nat) : DB × Bool :=
  match lookupActive db pid with
  | none => (db, false)
  | some _ =>
    let db1 := match findItemByPoll db session_id pid with
      | some item => updateItem db item.id (timeoutUpd now)
      | none => db
    let db2 := eraseActive db1 pid
    (bumpIndex db2 session_id, true)

/-- `timeout_fallback` handler: mutations plus the tail `send_next_quiz`
    when the row was still present. -/
def timeout_fallback (db : DB) (session_id pid now : Nat) (out : SendOutcome) :
    DB × List Msg :=
  match timeoutStep db session_id pid now with
  | (db1, true) => send_next_quiz db1 session_id now out
  | (db1, false) => (db1, [])

/-- `SELECT id FROM quizzes WHERE subject=? AND chapter=?`. -/
def poolIds (db : DB) (subject chapter : Nat) : List Nat :=
  (db.quizzes.filter (fun qz =>
    decide (qz.subject = subject ∧ qz.chapter = chapter))).map (fun qz => qz.id)

/-- `UPDATE sessions SET state='stopped' WHERE user_id=? AND
    state='running'` (used by `begin_quiz_session`, `/stop` and the
    stop-quiz button). -/
def stopRunning (db : DB) (uid : Nat) : DB :=
  { db with sessions := db.sessions.map (fun s =>
      if s.user_id = uid ∧ s.state = SState.running
      then { s with state := SState.stopped } else s) }

/-- The `session_items` rows inserted by the `for i, qid in
    enumerate(ids)` loop of `begin_quiz_session`. -/
def newSessionItems (sid firstItemId : Nat) (shuffled : List Nat) :
    List SessionItem :=
  shuffled.enum.map (fun p =>
    { id := firstItemId + p.1, session_id := sid, quiz_id := p.2,
      poll_id := none, sent_at := none, chosen := none, is_correct := none,
      closed_at := none, idx := p.1 })

/-- The database mutations of `begin_quiz_session` (src/main.py lines
    511-554) from the pool query on: with an empty pool it returns with a
    user-facing error message and no change; otherwise — `shuffled` being
    the order `random.shuffle` produced — it stops the user's running
    sessions, inserts one session row (`current_index` takes its DEFAULT
    0, `state='running'`, `total=len(ids)`) and one item row per quiz id. -/
def newSession (db : DB) (uid chat_id op now : Nat)
    (shuffled : List Nat) : Session :=
  { id := db.nextSessionId, user_id := uid, chat_id := chat_id,
    total := shuffled.length, open_period := op, started_at := now,
    finished_at := none, state := SState.running, current_index := 0 }

def beginStep (db : DB) (uid chat_id op now subject chapter : Nat)
    (shuffled : List Nat) : DB × Option Nat :=
  if (poolIds db subject chapter) = [] then (db, none)
  else
    let db1 := stopRunning db uid
    let sid := db.nextSessionId
    let srow : Session := newSession db uid chat_id op now shuffled
    ({ db1 with
        sessions := db1.sessions ++ [srow],
        items := db1.items ++ newSessionItems sid db.nextItemId shuffled,
        nextSessionId := sid + 1,
        nextItemId := db.nextItemId + shuffled.length }, some sid)

/-- `begin_quiz_session` handler: the mutations plus the initial
    `send_next_quiz` call on the new session. -/
def begin_quiz_session (db : DB) (uid chat_id op now subject chapter : Nat)
    (shuffled : List Nat) (out : SendOutcome) : DB × List Msg :=
  match beginStep db uid chat_id op now subject chapter shuffled with
  | (db1, some sid) => send_next_quiz db1 sid now out
  | (db1, none) => (db1, [])

/-- `/stop` and the stop-quiz button. -/
def stop_cmd (db : DB) (uid : Nat) : DB := stopRunning db uid

/-- Freshness of a Telegram-issued poll id: transport ids are globally
    unique, so a newly delivered poll's id differs from every id in the
    active-poll table and from every scheduled timeout task's id. -/
def FreshOut (db : DB) (out : SendOutcome) : Prop :=
  match out with
  | SendOutcome.fail => True
  | SendOutcome.ok pid =>
      (∀ r ∈ db.active_polls, r.poll_id ≠ pid) ∧ ∀ t ∈ db.timeouts, t.2 ≠ pid

instance (db : DB) (out : SendOutcome) : Decidable (FreshOut db out) :=
  match out with
  | SendOutcome.fail => isTrue trivial
  | SendOutcome.ok pid => inferInstanceAs (Decidable
      ((∀ r ∈ db.active_polls, r.poll_id ≠ pid) ∧ ∀ t ∈ db.timeouts, t.2 ≠ pid))

/-- Freshness of one delivered poll id relative to a single earlier poll
    id: Telegram transport ids are globally unique, so the id of a newly
    sent poll differs from the id of any previously sent one. -/
def FreshForPid (out : SendOutcome) (pid : Nat) : Prop :=
  match out with
  | SendOutcome.fail => True
  | SendOutcome.ok p => p ≠ pid

instance (out : SendOutcome) (pid : Nat) : Decidable (FreshForPid out pid) :=
  match out with
  | SendOutcome.fail => isTrue trivial
  | SendOutcome.ok p => inferInstanceAs (Decidable (p ≠ pid))

/-- An asyncio timer task fires at most once: firing consumes its entry. -/
def consumeTimeout (db : DB) (sid pid : Nat) : DB :=
  { db with timeouts := db.timeouts.erase (sid, pid) }

/-- The freshly initialised database (`db_init`): empty tables, first
    AUTOINCREMENT ids 1. -/
def initDB : DB :=
  { quizzes := [], sessions := [], items := [], active_polls := [],
    timeouts := [], nextSessionId := 1, nextItemId := 1 }

/-- One dispatch of the bot's event loop touching the session engine:
    a session start, a poll-answer update, a scheduled timeout firing
    (only for a task that was actually created), a stop command, or any
    of the admin quiz-table CRUD operations (which touch only the
    `quizzes` table).  `random.shuffle` is modelled by quantifying over
    the permutation; Telegram id freshness by `FreshOut`. -/
inductive Step : DB → DB → Prop where
  | beginSession (db : DB) (uid chat_id op now subject chapter : Nat)
      (shuffled : List Nat) (out : SendOutcome)
      (hperm : shuffled.Perm (poolIds db subject chapter))
      (hfresh : FreshOut db out) :
      Step db (begin_quiz_session db uid chat_id op now subject chapter shuffled out).1
  | answer (db : DB) (pid : Nat) (chosen : Option Nat) (now : Nat)
      (out : SendOutcome) (hfresh : FreshOut db out) :
      Step db (poll_answer db pid chosen now out).1
  | timeoutFire (db : DB) (sid pid now : Nat) (out : SendOutcome)
      (hsched : (sid, pid) ∈ db.timeouts) (hfresh : FreshOut db out) :
      Step db (timeout_fallback (consumeTimeout db sid pid) sid pid now out).1
  | stopAll (db : DB) (uid : Nat) : Step db (stop_cmd db uid)
  | quizTable (db : DB) (qs : List Quiz) : Step db { db with quizzes := qs }

/-- Database states reachable from a fresh install through the session
    engine events. -/
inductive Reachable : DB → Prop where
  | init : Reachable initDB
  | step {db db' : DB} : Reachable db → Step db db' → Reachable db'

/-- The inductive invariant of the session engine. -/
structure Inv (db : DB) : Prop where
  idx_le : ∀ s ∈ db.sessions, s.current_index ≤ s.total
  total_eq : ∀ s ∈ db.sessions,
    s.total = (db.items.filter (fun it => decide (it.session_id = s.id))).length
  active_session : ∀ r ∈ db.active_polls,
    ∃ s ∈ db.sessions, s.id = r.session_id ∧ s.current_index < s.total
  active_unique : ∀ sid : Nat,
    db.active_polls.countP (fun r => decide (r.session_id = sid)) ≤ 1
  sched_consistent : ∀ t ∈ db.timeouts, ∀ r ∈ db.active_polls,
    r.poll_id = t.2 → r.session_id = t.1
  sess_nodup : (db.sessions.map (fun s => s.id)).Nodup
  sess_lt : ∀ s ∈ db.sessions, s.id < db.nextSessionId
  item_sid_lt : ∀ it ∈ db.items, it.session_id < db.nextSessionId

/-! ## Admin-set management (claim C10)

Only the settings-backed admin id set matters here; `add_admin` /
`remove_admin` (src/main.py lines 160-169) read it, modify it and store
it back, so the set itself is the state. -/

/-- The hard-coded owner id (src/main.py line 17). -/
def OWNER_ID : Nat := 5902126578

/-- `add_admin(uid)` (src/main.py line 160): set insertion. -/
def add_admin (ids : List Nat) (uid : Nat) : List Nat :=
  if uid ∈ ids then ids else uid :: ids

/-- `remove_admin(uid)` (src/main.py line 165): set removal. -/
def remove_admin (ids : List Nat) (uid : Nat) : List Nat :=
  ids.filter (fun x => decide (x ≠ uid))

/-- The admin-set effect of `/start` (src/main.py lines 297-302): when
    the stored admin set is empty, the caller — whoever it is — is
    auto-added ("first runner becomes admin"). -/
def startBootstrap (ids : List Nat) (uid : Nat) : List Nat :=
  if ids = [] then add_admin ids uid else ids

/-- The admin-set effect of the `a:admins:rm:<tgt>` callback
    (src/main.py lines 727-737 and 888-894): the `admins` action class is
    in `OWNER_ONLY`, and the owner cannot be removed. -/
def adminsRemoveAction (ids : List Nat) (actor tgt : Nat) : List Nat :=
  if actor ≠ OWNER_ID then ids
  else if tgt = OWNER_ID then ids
  else remove_admin ids tgt

/-- The admin-set effect of the `ADMINS_ADD_PROMPT` text handler
    (src/main.py lines 1058-1080): owner-only; adds the referenced id. -/
def adminsAddAction (ids : List Nat) (actor tgt : Nat) : List Nat :=
  if actor ≠ OWNER_ID then ids else add_admin ids tgt

/-! ## JSON import (claim C8) -/

/-- One parsed object of an imported JSON array, with the keys the
    IMPORT loop reads: `question`, `options`, `correct`, and the optional
    `explanation`, `subject`, `chapter`. -/
structure ImportEntry where
  question : List Char
  options : List (List Char)
  correct : Int
  explanation : Option (List Char)
  subject : Nat
  chapter : Nat
deriving DecidableEq

/-- The `quizzes` row the IMPORT branch of `text_or_poll` inserts for one
    entry (src/main.py lines 1024-1032): the fields are stored verbatim;
    `sanitize_for_poll` is not called. -/
def importRow (nextQuizId : Nat) (e : ImportEntry) : Quiz :=
  { id := nextQuizId, question := e.question, options := e.options,
    correct := e.correct, explanation := e.explanation,
    subject := e.subject, chapter := e.chapter }

/-- The IMPORT loop of `text_or_poll` (src/main.py lines 1000-1039):
    `for it in data: INSERT ...; count += 1` — every entry of the array
    is inserted in order and counted, with no per-entry validation. -/
def importQuizzes (quizzes : List Quiz) (nextQuizId : Nat) :
    List ImportEntry → List Quiz × Nat
  | [] => (quizzes, 0)
  | e :: rest =>
    let p := importQuizzes (quizzes ++ [importRow nextQuizId e])
      (nextQuizId + 1) rest
    (p.1, p.2 + 1)

/-! A small concrete run of the engine: one imported quiz, one session of
    one question started with no per-question timer, answered correctly,
    with the summary send failing — leaving a running session whose cursor
    has reached its total.  Used to exercise the finalization path. -/

/-- A concrete stored quiz with two options. -/
def C2quiz : Quiz :=
  { id := 1, question := [.ofNat 113], options := [[.ofNat 97], [.ofNat 98]],
    correct := 0, explanation := none, subject := 0, chapter := 0 }

/-- Fresh install with the one quiz stored. -/
def C2db1 : DB := { initDB with quizzes := [C2quiz] }

/-- After `begin_quiz_session` for user 9 (untimed, pool `[1]`, the poll
    send succeeding with transport id 7). -/
def C2db2 : DB :=
  (begin_quiz_session C2db1 9 5 0 50 0 0 [1] (SendOutcome.ok 7)).1

/-- After the user answers option 0 and the follow-up send fails: the
    session cursor equals its total but the state is still `running`. -/
def C2db : DB := (poll_answer C2db2 7 (some 0) 60 SendOutcome.fail).1

/-! Basic lemmas about the sanitizer building blocks. -/

theorem _truncate_of_le {s : List Char} {n : Nat} (h : s.length ≤ n) :
    _truncate s n = s := by
  simp [_truncate, h]

theorem _truncate_length {s : List Char} {n : Nat} (hn : 1 ≤ n) :
    (_truncate s n).length ≤ n := by
  unfold _truncate
  split
  · assumption
  · simp only [List.length_append, List.length_take, List.length_cons,
      List.length_nil]
    omega

theorem _truncate_eq_or_ends {s : List Char} {n : Nat} :
    _truncate s n = s ∨ (_truncate s n).getLast? = some ellipsisChar := by
  unfold _truncate
  split
  · exact Or.inl rfl
  · right
    exact List.getLast?_concat _

theorem _truncate_ne_nil {s : List Char} {n : Nat} (h : s ≠ []) :
    _truncate s n ≠ [] := by
  unfold _truncate
  split
  · exact h
  · simp

theorem dedupeAux_sublist (l : List (List Char)) :
    ∀ seen, (dedupeAux seen l).Sublist l := by
  induction l with
  | nil => intro seen; simp [dedupeAux]
  | cons o rest ih =>
    intro seen
    by_cases h : o ∈ seen
    · simpa [dedupeAux, h] using (ih seen).cons o
    · simpa [dedupeAux, h] using (ih (o :: seen)).cons₂ o

theorem dedupe_sublist (l : List (List Char)) : (dedupe l).Sublist l :=
  dedupeAux_sublist l []

theorem dedupeAux_nodup (l : List (List Char)) :
    ∀ seen, (dedupeAux seen l).Nodup ∧ ∀ x ∈ dedupeAux seen l, x ∉ seen := by
  induction l with
  | nil => intro seen; simp [dedupeAux]
  | cons o rest ih =>
    intro seen
    by_cases h : o ∈ seen
    · simp only [dedupeAux, if_pos h]
      exact ih seen
    · simp only [dedupeAux, if_neg h]
      obtain ⟨hnd, hnotin⟩ := ih (o :: seen)
      refine ⟨List.nodup_cons.mpr ⟨fun hmem => ?_, hnd⟩, ?_⟩
      · exact (hnotin o hmem) (List.mem_cons_self o seen)
      · intro x hx
        rcases List.mem_cons.mp hx with rfl | hx'
        · exact h
        · intro hxseen
          exact hnotin x hx' (List.mem_cons_of_mem o hxseen)

theorem dedupe_nodup (l : List (List Char)) : (dedupe l).Nodup :=
  (dedupeAux_nodup l []).1

theorem dedupeAux_eq_self {l : List (List Char)} (hnd : l.Nodup) :
    ∀ seen, (∀ x ∈ l, x ∉ seen) → dedupeAux seen l = l := by
  induction l with
  | nil => intro seen _; simp [dedupeAux]
  | cons o rest ih =>
    intro seen hsub
    have ho : o ∉ seen := hsub o (List.mem_cons_self o rest)
    simp only [dedupeAux, if_neg ho]
    obtain ⟨honotin, hrest⟩ := List.nodup_cons.mp hnd
    congr 1
    refine ih hrest (o :: seen) ?_
    intro x hx hmem
    rcases List.mem_cons.mp hmem with rfl | hxseen
    · exact honotin hx
    · exact hsub x (List.mem_cons_of_mem o hx) hxseen

theorem dedupe_eq_self {l : List (List Char)} (hnd : l.Nodup) :
    dedupe l = l :=
  dedupeAux_eq_self hnd [] (by simp)

theorem head?_dropWhile (p : Char → Bool) (l : List Char) {c : Char}
    (h : (List.dropWhile p l).head? = some c) : p c = false := by
  induction l with
  | nil => simp at h
  | cons a t ih =>
    by_cases hpa : p a
    · rw [List.dropWhile_cons, if_pos hpa] at h
      exact ih h
    · rw [List.dropWhile_cons, if_neg hpa] at h
      simp only [List.head?_cons, Option.some.injEq] at h
      subst h
      simpa using hpa

theorem pyStrip_eq_self {l : List Char}
    (h1 : ∀ c, l.head? = some c → isSpace c = false)
    (h2 : ∀ c, l.getLast? = some c → isSpace c = false) :
    pyStrip l = l := by
  have hd : List.dropWhile isSpace l = l := by
    cases l with
    | nil => rfl
    | cons a t =>
      have := h1 a (by simp)
      simp [List.dropWhile_cons, this]
  have hr : List.dropWhile isSpace l.reverse = l.reverse := by
    cases hrev : l.reverse with
    | nil => rfl
    | cons a t =>
      have ha : l.getLast? = some a := by
        rw [List.getLast?_eq_head?_reverse, hrev]
        rfl
      have := h2 a ha
      simp [List.dropWhile_cons, this]
  unfold pyStrip
  rw [hd, hr, List.reverse_reverse]

theorem pyStrip_head? {l : List Char} {c : Char}
    (h : (pyStrip l).head? = some c) : isSpace c = false := by
  obtain ⟨t, ht⟩ :=
    List.dropWhile_suffix (l := (List.dropWhile isSpace l).reverse) isSpace
  have hm : pyStrip l ++ t.reverse = List.dropWhile isSpace l := by
    have := congrArg List.reverse ht
    simpa [pyStrip, List.reverse_append] using this
  have hhead : (List.dropWhile isSpace l).head? = some c := by
    rw [← hm, List.head?_append, h]
    rfl
  exact head?_dropWhile _ _ hhead

theorem pyStrip_getLast? {l : List Char} {c : Char}
    (h : (pyStrip l).getLast? = some c) : isSpace c = false := by
  unfold pyStrip at h
  rw [List.getLast?_reverse] at h
  exact head?_dropWhile _ _ h

theorem map_eq_self_of {α : Type} {f : α → α} {l : List α}
    (h : ∀ x ∈ l, f x = x) : l.map f = l := by
  induction l with
  | nil => rfl
  | cons a t ih =>
    simp only [List.map_cons, h a (List.mem_cons_self a t),
      List.cons.injEq, true_and]
    exact ih (fun x hx => h x (List.mem_cons_of_mem a hx))

/-- Unpacks a successful run of `sanitize_for_poll` into equations for the
    three returned components and the negated error guard. -/
theorem sanitize_ok_elim {q : List Char} {opts : List (List Char)}
    {expl : Option (List Char)} {r : Sanitized}
    (h : sanitize_for_poll q opts expl = Except.ok r) :
    r.options = (dedupe ((opts.map (fun o => _truncate o 100)).filter
        (fun o => !(pyStrip o).isEmpty))).take 10 ∧
    r.question = _truncate (pyStrip q) 292 ∧
    r.explanation = (match expl with
      | some e => if e = [] then none else some e
      | none => none).map (fun e => _truncate e 200) ∧
    ¬ ((dedupe ((opts.map (fun o => _truncate o 100)).filter
        (fun o => !(pyStrip o).isEmpty))).take 10).length < 2 := by
  simp only [sanitize_for_poll] at h
  split at h
  · exact absurd h (by simp)
  · rename_i hguard
    injection h with h
    subst h
    exact ⟨rfl, rfl, rfl, hguard⟩

/-- Every option surviving `sanitize_for_poll` went through truncation,
    the blank filter, deduplication and the cap. -/
theorem sanitize_option_mem {q : List Char} {opts : List (List Char)}
    {expl : Option (List Char)} {r : Sanitized}
    (h : sanitize_for_poll q opts expl = Except.ok r)
    {o : List Char} (ho : o ∈ r.options) :
    o ∈ opts.map (fun o => _truncate o 100) ∧ (pyStrip o).isEmpty = false := by
  obtain ⟨hopt, -, -, -⟩ := sanitize_ok_elim h
  rw [hopt] at ho
  have h1 : o ∈ dedupe ((opts.map (fun o => _truncate o 100)).filter
      (fun o => !(pyStrip o).isEmpty)) :=
    List.Sublist.mem ho (List.take_sublist _ _)
  have h2 : o ∈ (opts.map (fun o => _truncate o 100)).filter
      (fun o => !(pyStrip o).isEmpty) :=
    List.Sublist.mem h1 (dedupe_sublist _)
  obtain ⟨hmem, hpred⟩ := List.mem_filter.mp h2
  exact ⟨hmem, by simpa using hpred⟩

/-- C6: `sanitize_for_poll` errors exactly when fewer than 2 options
    survive truncation, the blank-drop and deduplication; on success it
    returns 2 to 10 options, each non-empty, at most 100 characters,
    pairwise distinct and in first-seen input order (a sublist of the
    truncated input), a question of at most 292 characters and an
    explanation of at most 200 characters, where every string that was cut
    ends in the ellipsis marker. -/
theorem C6_sanitizer_contract (q : List Char) (opts : List (List Char))
    (expl : Option (List Char)) :
    (sanitize_for_poll q opts expl = Except.error () ↔
      (dedupe ((opts.map (fun o => _truncate o 100)).filter
        (fun o => !(pyStrip o).isEmpty))).length < 2) ∧
    (∀ r, sanitize_for_poll q opts expl = Except.ok r →
      (2 ≤ r.options.length ∧ r.options.length ≤ 10) ∧
      (∀ o ∈ r.options, o ≠ [] ∧ o.length ≤ 100 ∧
        (o ∈ opts ∨ o.getLast? = some ellipsisChar)) ∧
      r.options.Nodup ∧
      r.options.Sublist (opts.map (fun o => _truncate o 100)) ∧
      r.question.length ≤ 292 ∧
      (r.question = pyStrip q ∨ r.question.getLast? = some ellipsisChar) ∧
      (∀ e, r.explanation = some e →
        e.length ≤ 200 ∧ (expl = some e ∨ e.getLast? = some ellipsisChar))) := by
  constructor
  · constructor
    · intro h
      simp only [sanitize_for_poll] at h
      split at h
      · rename_i hguard
        rw [List.length_take] at hguard
        omega
      · exact absurd h (by simp)
    · intro h
      simp only [sanitize_for_poll]
      rw [if_pos (by rw [List.length_take]; omega)]
  · intro r hr
    obtain ⟨hopt, hq, hexpl, hguard⟩ := sanitize_ok_elim hr
    refine ⟨⟨?_, ?_⟩, ?_, ?_, ?_, ?_, ?_, ?_⟩
    · rw [hopt]; omega
    · rw [hopt, List.length_take]; omega
    · intro o ho
      obtain ⟨hmem, hblank⟩ := sanitize_option_mem hr ho
      obtain ⟨src, hsrc, hsrceq⟩ := List.mem_map.mp hmem
      refine ⟨?_, ?_, ?_⟩
      · intro hnil
        rw [hnil] at hblank
        simp [pyStrip] at hblank
      · rw [← hsrceq]; exact _truncate_length (by omega)
      · rcases (_truncate_eq_or_ends (s := src) (n := 100)) with heq | hend
        · left; rw [← hsrceq, heq]; exact hsrc
        · right; rw [← hsrceq]; exact hend
    · rw [hopt]
      exact List.Sublist.nodup (List.take_sublist _ _) (dedupe_nodup _)
    · rw [hopt]
      exact ((List.take_sublist _ _).trans (dedupe_sublist _)).trans
        (List.filter_sublist _)
    · rw [hq]; exact _truncate_length (by omega)
    · rw [hq]; exact _truncate_eq_or_ends
    · intro e he
      rw [hexpl] at he
      cases expl with
      | none => simp at he
      | some e0 =>
        by_cases h0 : e0 = []
        · simp [h0] at he
        · simp only [if_neg h0, Option.map_some', Option.some.injEq] at he
          subst he
          refine ⟨_truncate_length (by omega), ?_⟩
          rcases (_truncate_eq_or_ends (s := e0) (n := 200)) with heq | hend
          · left; rw [heq]
          · right; exact hend

/-- Closed instance of the C6 contract at a concrete input. -/
theorem C6_sanitizer_contract_witness :
    2 ≤ (Sanitized.mk [] [['x'], ['y']] none).options.length ∧
    (Sanitized.mk [] [['x'], ['y']] none).options.Nodup :=
  have h := (C6_sanitizer_contract [] [['x'], ['y']] none).2
    (Sanitized.mk [] [['x'], ['y']] none) rfl
  ⟨h.1.1, h.2.2.1⟩

/-- C7: the sanitizer is idempotent — running `sanitize_for_poll` on its
    own successful output succeeds and returns the same output.  (It is
    also pure by construction: the model is a function of its three
    arguments alone, as is the Python source, which reads no globals.) -/
theorem C7_sanitizer_idempotent (q : List Char) (opts : List (List Char))
    (expl : Option (List Char)) (r : Sanitized)
    (h : sanitize_for_poll q opts expl = Except.ok r) :
    sanitize_for_poll r.question r.options r.explanation = Except.ok r := by
  obtain ⟨hopt, hq, hexpl, hguard⟩ := sanitize_ok_elim h
  -- facts about the returned options
  have hofacts : ∀ o ∈ r.options,
      o.length ≤ 100 ∧ (pyStrip o).isEmpty = false := by
    intro o ho
    obtain ⟨hmem, hblank⟩ := sanitize_option_mem h ho
    obtain ⟨src, -, hsrceq⟩ := List.mem_map.mp hmem
    exact ⟨by rw [← hsrceq]; exact _truncate_length (by omega), hblank⟩
  have hnodup : r.options.Nodup := by
    rw [hopt]
    exact List.Sublist.nodup (List.take_sublist _ _) (dedupe_nodup _)
  have hlen10 : r.options.length ≤ 10 := by
    rw [hopt, List.length_take]; omega
  -- the options pipeline fixes r.options
  have hmap : r.options.map (fun o => _truncate o 100) = r.options :=
    map_eq_self_of (fun o ho => _truncate_of_le (hofacts o ho).1)
  have hfilter : r.options.filter (fun o => !(pyStrip o).isEmpty) =
      r.options :=
    List.filter_eq_self.mpr (fun o ho => by simp [(hofacts o ho).2])
  have hded : dedupe r.options = r.options := dedupe_eq_self hnodup
  have htake : r.options.take 10 = r.options := List.take_of_length_le hlen10
  -- the question is already stripped and short enough
  have hqlen : r.question.length ≤ 292 := by
    rw [hq]; exact _truncate_length (by omega)
  have hqstrip : pyStrip r.question = r.question := by
    by_cases hcut : (pyStrip q).length ≤ 292
    · rw [hq, _truncate_of_le hcut]
      refine pyStrip_eq_self ?_ ?_
      · intro c hc; exact pyStrip_head? hc
      · intro c hc; exact pyStrip_getLast? hc
    · have hqe : r.question = (pyStrip q).take 291 ++ [ellipsisChar] := by
        rw [hq]; simp [_truncate, hcut]
      obtain ⟨a, rest, hpq⟩ : ∃ a rest, pyStrip q = a :: rest := by
        cases hpq : pyStrip q with
        | nil => rw [hpq] at hcut; simp at hcut
        | cons a rest => exact ⟨a, rest, rfl⟩
      refine pyStrip_eq_self ?_ ?_
      · intro c hc
        have hhead : (pyStrip q).head? = some a := by rw [hpq]; rfl
        rw [hqe, hpq] at hc
        have hred : List.take 291 (a :: rest) ++ [ellipsisChar] =
            a :: (List.take 290 rest ++ [ellipsisChar]) := rfl
        rw [hred] at hc
        simp only [List.head?_cons, Option.some.injEq] at hc
        exact hc ▸ pyStrip_head? hhead
      · intro c hc
        rw [hqe, List.getLast?_concat] at hc
        obtain rfl := (Option.some.injEq _ _).mp hc
        decide
  -- the explanation is already short enough (or absent)
  have hE : (match r.explanation with
      | some e => if e = [] then none else some e
      | none => none).map (fun e => _truncate e 200) = r.explanation := by
    rw [hexpl]
    cases expl with
    | none => rfl
    | some e0 =>
      by_cases h0 : e0 = []
      · simp [h0]
      · simp only [if_neg h0, Option.map_some']
        have hne : _truncate e0 200 ≠ [] := _truncate_ne_nil h0
        rw [if_neg hne]
        simp only [Option.map_some', Option.some.injEq]
        exact _truncate_of_le (_truncate_length (by omega))
  -- assemble the second run
  have hguard' : ¬ r.options.length < 2 := by rw [hopt]; exact hguard
  simp only [sanitize_for_poll, hmap, hfilter, hded, htake]
  rw [if_neg hguard']
  rw [hqstrip, _truncate_of_le hqlen, hE]

/-- Closed instance of sanitizer idempotence at a concrete input. -/
theorem C7_sanitizer_idempotent_witness :
    sanitize_for_poll [] [['p'], ['q']] none =
      Except.ok (Sanitized.mk [] [['p'], ['q']] none) ∧
    sanitize_for_poll (Sanitized.mk [] [['p'], ['q']] none).question
      (Sanitized.mk [] [['p'], ['q']] none).options
      (Sanitized.mk [] [['p'], ['q']] none).explanation =
      Except.ok (Sanitized.mk [] [['p'], ['q']] none) :=
  ⟨rfl, C7_sanitizer_idempotent [] [['p'], ['q']] none _ rfl⟩

/-! ## Generic helper lemmas for the engine proofs -/

theorem find?_map_of_pred {α : Type} (l : List α) (g : α → α) (p : α → Bool)
    (hp : ∀ a, p (g a) = p a) :
    (l.map g).find? p = (l.find? p).map g := by
  induction l with
  | nil => rfl
  | cons a t ih =>
    by_cases h : p a
    · simp [List.find?_cons, hp a, h]
    · simp only [List.map_cons, List.find?_cons, hp a,
        (Bool.not_eq_true _).mp h]
      exact ih

theorem lookupActive_eq_none_iff {db : DB} {pid : Nat} :
    lookupActive db pid = none ↔ ∀ r ∈ db.active_polls, r.poll_id ≠ pid := by
  unfold lookupActive
  rw [List.find?_eq_none]
  constructor
  · intro h r hr
    have := h r hr
    simpa using this
  · intro h r hr
    simpa using h r hr

theorem findSession_id {db : DB} {x : Nat} {s : Session}
    (h : findSession db x = some s) : s.id = x := by
  have := List.find?_some h
  simpa using this

theorem findSession_mem {db : DB} {x : Nat} {s : Session}
    (h : findSession db x = some s) : s ∈ db.sessions :=
  List.mem_of_find?_eq_some h

theorem lookupActive_pid {db : DB} {pid : Nat} {r : ActivePoll}
    (h : lookupActive db pid = some r) : r.poll_id = pid := by
  have := List.find?_some h
  simpa using this

theorem lookupActive_mem {db : DB} {pid : Nat} {r : ActivePoll}
    (h : lookupActive db pid = some r) : r ∈ db.active_polls :=
  List.mem_of_find?_eq_some h

theorem two_le_countP_of_mem {α : Type} {l : List α} {p : α → Bool}
    {x y : α} (hx : x ∈ l) (hy : y ∈ l) (hxy : x ≠ y)
    (hpx : p x = true) (hpy : p y = true) : 2 ≤ l.countP p := by
  induction l with
  | nil => simp at hx
  | cons a t ih =>
    rw [List.countP_cons]
    rcases List.mem_cons.mp hx with rfl | hx'
    · have hy' : y ∈ t := by
        rcases List.mem_cons.mp hy with rfl | h
        · exact absurd rfl hxy
        · exact h
      have h1 : 0 < t.countP p := List.countP_pos_iff.mpr ⟨y, hy', hpy⟩
      rw [if_pos hpx]
      omega
    · rcases List.mem_cons.mp hy with rfl | hy'
      · have h1 : 0 < t.countP p := List.countP_pos_iff.mpr ⟨x, hx', hpx⟩
        rw [if_pos hpy]
        omega
      · have := ih hx' hy'
        omega

/-! ## Claim C8: JSON import -/

/-- C8 counterexample: in the import of a two-entry array whose first
    entry has a single option, the bad entry is *not* rejected — the
    sanitizer would reject it, but the IMPORT loop stores it verbatim
    alongside the valid entry. -/
theorem C8_import_counterexample :
    sanitize_for_poll ['q'] [['a']] none = Except.error () ∧
    (importQuizzes [] 1
      [⟨['q'], [['a']], 0, none, 0, 0⟩, ⟨['r'], [['a'], ['b']], 0, none, 0, 0⟩]).1 =
      [importRow 1 ⟨['q'], [['a']], 0, none, 0, 0⟩,
       importRow 2 ⟨['r'], [['a'], ['b']], 0, none, 0, 0⟩] ∧
    (importQuizzes [] 1
      [⟨['q'], [['a']], 0, none, 0, 0⟩, ⟨['r'], [['a'], ['b']], 0, none, 0, 0⟩]).2 = 2 :=
  ⟨rfl, rfl, rfl⟩

/-- C8 amended: the IMPORT loop performs no sanitization at all — every
    entry of the array (including any that `sanitize_for_poll` would
    reject, e.g. one with a single option) is stored verbatim, in order,
    after the pre-existing quizzes, and the reported count is the array
    length.  (Invalid rows are instead skipped later, at session start,
    by the variant's `_collect_valid_quiz_ids`.) -/
theorem C8_import_amended (quizzes : List Quiz) (nextQuizId : Nat)
    (entries : List ImportEntry) :
    (importQuizzes quizzes nextQuizId entries).1.map
        (fun qz => (qz.question, qz.options, qz.correct, qz.explanation)) =
      quizzes.map (fun qz => (qz.question, qz.options, qz.correct, qz.explanation)) ++
      entries.map (fun e => (e.question, e.options, e.correct, e.explanation)) ∧
    (importQuizzes quizzes nextQuizId entries).2 = entries.length := by
  induction entries generalizing quizzes nextQuizId with
  | nil => simp [importQuizzes]
  | cons e rest ih =>
    obtain ⟨h1, h2⟩ := ih (quizzes ++ [importRow nextQuizId e]) (nextQuizId + 1)
    constructor
    · simp only [importQuizzes]
      rw [h1]
      simp [importRow]
    · simp only [importQuizzes, h2, List.length_cons]

/-! ## Claim C10: admin-set management -/

/-- C10 counterexample: with an empty stored admin set, a non-owner's
    `/start` adds that user to the admin set ("first runner becomes
    admin"), so a non-owner operation does change the admin set. -/
theorem C10_admin_counterexample :
    (42 : Nat) ≠ OWNER_ID ∧ startBootstrap [] 42 = [42] ∧
    ([42] : List Nat) ≠ [] :=
  ⟨by decide, rfl, by decide⟩

/-- C10 amended: apart from the `/start` bootstrap — which auto-adds the
    caller only while the stored admin set is empty — the admin set
    changes only through owner actions: for any non-owner actor the
    admins-remove callback and the admins-add prompt leave the set
    untouched, and `/start` on a non-empty set changes nothing. -/
theorem C10_admin_owner_gated (ids : List Nat) (actor tgt : Nat)
    (h : actor ≠ OWNER_ID) :
    adminsRemoveAction ids actor tgt = ids ∧
    adminsAddAction ids actor tgt = ids ∧
    (ids ≠ [] → startBootstrap ids actor = ids) := by
  refine ⟨?_, ?_, ?_⟩
  · simp [adminsRemoveAction, h]
  · simp [adminsAddAction, h]
  · intro hne
    simp [startBootstrap, hne]

/-- Closed instance of the owner gate at concrete values. -/
theorem C10_admin_owner_gated_witness :
    (7 : Nat) ≠ OWNER_ID ∧ adminsRemoveAction [3] 7 3 = [3] ∧
    adminsAddAction [3] 7 11 = [3] ∧ startBootstrap [3] 7 = [3] :=
  have h := C10_admin_owner_gated [3] 7 3 (by decide)
  have h' := C10_admin_owner_gated [3] 7 11 (by decide)
  ⟨by decide, h.1, h'.2.1, h.2.2 (by decide)⟩

/-! ## Claim C9: empty-pool session creation -/

/-- C9: with an empty quiz pool for the chosen subject/chapter,
    `begin_quiz_session` reports a user-facing error ("No quizzes found
    for this selection", modelled by the `none` result) and changes
    nothing: no session row, no item rows, and every existing session —
    running ones of this user included — keeps its state, because the
    pool is checked before the `UPDATE ... SET state='stopped'`. -/
theorem C9_empty_pool_atomic (db : DB)
    (uid chat_id op now subject chapter : Nat) (shuffled : List Nat)
    (out : SendOutcome) (h : poolIds db subject chapter = []) :
    beginStep db uid chat_id op now subject chapter shuffled = (db, none) ∧
    begin_quiz_session db uid chat_id op now subject chapter shuffled out =
      (db, []) := by
  have h1 : beginStep db uid chat_id op now subject chapter shuffled =
      (db, none) := by
    simp [beginStep, h]
  exact ⟨h1, by simp [begin_quiz_session, h1]⟩

/-- Closed instance: on a fresh install every pool is empty and session
    creation is a no-op. -/
theorem C9_empty_pool_atomic_witness :
    poolIds initDB 0 0 = [] ∧
    beginStep initDB 9 5 30 100 0 0 [] = (initDB, none) :=
  ⟨rfl, (C9_empty_pool_atomic initDB 9 5 30 100 0 0 [] SendOutcome.fail rfl).1⟩

/-! ## Claim C5: session creation -/

/-- C5: a successful session creation from a non-empty pool inserts
    exactly one session row (`total` = pool size, `state = running`,
    `current_index = 0`) after first setting every running session of the
    user to `stopped`; it inserts one `session_items` row per quiz id of
    the shuffled pool, with `idx` values `0..total-1` in order (hence a
    permutation of `0..total-1`) and quiz ids a permutation of the pool;
    afterwards the user's only running session is the new one.
    `hitems` is the primary-key freshness of the new AUTOINCREMENT id. -/
theorem C5_session_creation (db : DB) (uid chat_id op now subject chapter : Nat)
    (shuffled : List Nat)
    (hperm : shuffled.Perm (poolIds db subject chapter))
    (hne : poolIds db subject chapter ≠ [])
    (hitems : ∀ it ∈ db.items, it.session_id ≠ db.nextSessionId) :
    (beginStep db uid chat_id op now subject chapter shuffled).2 =
      some db.nextSessionId ∧
    shuffled.length = (poolIds db subject chapter).length ∧
    (beginStep db uid chat_id op now subject chapter shuffled).1.sessions =
      db.sessions.map (fun s =>
        if s.user_id = uid ∧ s.state = SState.running
        then { s with state := SState.stopped } else s) ++
      [{ id := db.nextSessionId, user_id := uid, chat_id := chat_id,
         total := shuffled.length, open_period := op, started_at := now,
         finished_at := none, state := SState.running, current_index := 0 }] ∧
    ((beginStep db uid chat_id op now subject chapter shuffled).1.items.filter
        (fun it => decide (it.session_id = db.nextSessionId))).map
        (fun it => it.idx) = List.range shuffled.length ∧
    ((beginStep db uid chat_id op now subject chapter shuffled).1.items.filter
        (fun it => decide (it.session_id = db.nextSessionId))).map
        (fun it => it.quiz_id) = shuffled ∧
    (((beginStep db uid chat_id op now subject chapter shuffled).1.items.filter
        (fun it => decide (it.session_id = db.nextSessionId))).map
        (fun it => it.quiz_id)).Perm (poolIds db subject chapter) ∧
    (beginStep db uid chat_id op now subject chapter shuffled).1.sessions.filter
        (fun s => decide (s.user_id = uid ∧ s.state = SState.running)) =
      [{ id := db.nextSessionId, user_id := uid, chat_id := chat_id,
         total := shuffled.length, open_period := op, started_at := now,
         finished_at := none, state := SState.running, current_index := 0 }] := by
  have hfil : ((beginStep db uid chat_id op now subject chapter shuffled).1.items.filter
      (fun it => decide (it.session_id = db.nextSessionId))) =
      newSessionItems db.nextSessionId db.nextItemId shuffled := by
    have hstep : (beginStep db uid chat_id op now subject chapter shuffled).1.items =
        db.items ++ newSessionItems db.nextSessionId db.nextItemId shuffled := by
      simp only [beginStep]
      rw [if_neg hne]
      rfl
    rw [hstep, List.filter_append]
    have h1 : db.items.filter
        (fun it => decide (it.session_id = db.nextSessionId)) = [] := by
      rw [List.filter_eq_nil_iff]
      intro it hit
      simpa using hitems it hit
    have h2 : (newSessionItems db.nextSessionId db.nextItemId shuffled).filter
        (fun it => decide (it.session_id = db.nextSessionId)) =
        newSessionItems db.nextSessionId db.nextItemId shuffled := by
      rw [List.filter_eq_self]
      intro it hit
      unfold newSessionItems at hit
      obtain ⟨p, -, rfl⟩ := List.mem_map.mp hit
      simp
    rw [h1, h2, List.nil_append]
  have hidx : (newSessionItems db.nextSessionId db.nextItemId shuffled).map
      (fun it => it.idx) = List.range shuffled.length := by
    unfold newSessionItems
    rw [List.map_map]
    exact List.enum_map_fst shuffled
  have hqid : (newSessionItems db.nextSessionId db.nextItemId shuffled).map
      (fun it => it.quiz_id) = shuffled := by
    unfold newSessionItems
    rw [List.map_map]
    exact List.enum_map_snd shuffled
  have hsess : (beginStep db uid chat_id op now subject chapter shuffled).1.sessions =
      db.sessions.map (fun s =>
        if s.user_id = uid ∧ s.state = SState.running
        then { s with state := SState.stopped } else s) ++
      [{ id := db.nextSessionId, user_id := uid, chat_id := chat_id,
         total := shuffled.length, open_period := op, started_at := now,
         finished_at := none, state := SState.running, current_index := 0 }] := by
    simp only [beginStep]
    rw [if_neg hne]
    rfl
  refine ⟨?_, hperm.length_eq, hsess, ?_, ?_, ?_, ?_⟩
  · simp only [beginStep]
    rw [if_neg hne]
  · rw [hfil, hidx]
  · rw [hfil, hqid]
  · rw [hfil, hqid]
    exact hperm
  · rw [hsess, List.filter_append]
    have h1 : (db.sessions.map (fun s =>
        if s.user_id = uid ∧ s.state = SState.running
        then { s with state := SState.stopped } else s)).filter
        (fun s => decide (s.user_id = uid ∧ s.state = SState.running)) = [] := by
      rw [List.filter_eq_nil_iff]
      intro s' hs'
      obtain ⟨s, -, rfl⟩ := List.mem_map.mp hs'
      by_cases hc : s.user_id = uid ∧ s.state = SState.running
      · rw [if_pos hc]
        simp
      · rw [if_neg hc]
        simpa using hc
    rw [h1, List.nil_append]
    simp

/-- Closed instance of session creation on a one-quiz pool. -/
theorem C5_session_creation_witness :
    (beginStep ⟨[⟨1, ['q'], [['a'], ['b']], 0, none, 0, 0⟩], [], [], [], [], 1, 1⟩
      9 5 30 100 0 0 [1]).2 = some 1 ∧
    ((beginStep ⟨[⟨1, ['q'], [['a'], ['b']], 0, none, 0, 0⟩], [], [], [], [], 1, 1⟩
      9 5 30 100 0 0 [1]).1.items.filter
        (fun it => decide (it.session_id = 1))).map (fun it => it.quiz_id) = [1] := by
  have h := C5_session_creation
    ⟨[⟨1, ['q'], [['a'], ['b']], 0, none, 0, 0⟩], [], [], [], [], 1, 1⟩
    9 5 30 100 0 0 [1] (by decide) (by decide) (by intro it hit; simp at hit)
  exact ⟨h.1, h.2.2.2.2.1⟩

/-! ## Claim C3: the poll-answer handler -/

theorem findSession_eraseActive (db : DB) (pid x : Nat) :
    findSession (eraseActive db pid) x = findSession db x := rfl

theorem findSession_updateItem (db : DB) (iid x : Nat)
    (f : SessionItem → SessionItem) :
    findSession (updateItem db iid f) x = findSession db x := rfl

theorem lookupActive_updateItem (db : DB) (iid pid : Nat)
    (f : SessionItem → SessionItem) :
    lookupActive (updateItem db iid f) pid = lookupActive db pid := rfl

theorem lookupActive_updateSession (db : DB) (sid pid : Nat)
    (f : Session → Session) :
    lookupActive (updateSession db sid f) pid = lookupActive db pid := rfl

theorem lookupActive_eraseActive (db : DB) (pid : Nat) :
    lookupActive (eraseActive db pid) pid = none := by
  rw [lookupActive_eq_none_iff]
  intro r hr
  have := (List.mem_filter.mp hr).2
  simpa using this

theorem okFlag_eq_one_iff (chosen : Option Nat) (correct : Int) :
    okFlag chosen correct = 1 ↔
      ∃ c, chosen = some c ∧ (c : Int) = correct := by
  cases chosen with
  | none => simp [okFlag]
  | some c =>
    by_cases h : (c : Int) = correct
    · simp [okFlag, h]
    · simp [okFlag, h]

theorem findSession_bumpIndex (db : DB) (sid x : Nat) :
    findSession (bumpIndex db sid) x = (findSession db x).map
      (fun s => if s.id = sid then
        { s with current_index := s.current_index + 1 } else s) := by
  unfold findSession bumpIndex updateSession
  exact find?_map_of_pred _ _ _ (fun s => by by_cases h : s.id = sid <;> simp [h])

/-- C3 counterexample to the claim as stated: in an untimed session
    (`open_period = 0`), a poll-answer event with empty `option_ids`
    (a vote retraction, `chosen = None`) finds the active-poll row and
    deletes it, yet does *not* increment `current_index` and does not
    call advance, because the increment is guarded by
    `srow["open_period"] > 0 or chosen is not None`. -/
theorem C3_poll_answer_counterexample :
    lookupActive ⟨[⟨1, ['q'], [['a'], ['b']], 0, none, 0, 0⟩],
        [⟨1, 9, 5, 1, 0, 50, none, SState.running, 0⟩],
        [⟨1, 1, 1, some 7, some 50, none, none, none, 0⟩],
        [⟨7, 1, 9⟩], [], 2, 2⟩ 7 = some ⟨7, 1, 9⟩ ∧
    (pollAnswerStep ⟨[⟨1, ['q'], [['a'], ['b']], 0, none, 0, 0⟩],
        [⟨1, 9, 5, 1, 0, 50, none, SState.running, 0⟩],
        [⟨1, 1, 1, some 7, some 50, none, none, none, 0⟩],
        [⟨7, 1, 9⟩], [], 2, 2⟩ 7 none 60).2 = none ∧
    (findSession (pollAnswerStep ⟨[⟨1, ['q'], [['a'], ['b']], 0, none, 0, 0⟩],
        [⟨1, 9, 5, 1, 0, 50, none, SState.running, 0⟩],
        [⟨1, 1, 1, some 7, some 50, none, none, none, 0⟩],
        [⟨7, 1, 9⟩], [], 2, 2⟩ 7 none 60).1 1).map
      (fun s => s.current_index) = some 0 ∧
    lookupActive (pollAnswerStep ⟨[⟨1, ['q'], [['a'], ['b']], 0, none, 0, 0⟩],
        [⟨1, 9, 5, 1, 0, 50, none, SState.running, 0⟩],
        [⟨1, 1, 1, some 7, some 50, none, none, none, 0⟩],
        [⟨7, 1, 9⟩], [], 2, 2⟩ 7 none 60).1 7 = none :=
  ⟨rfl, rfl, rfl, rfl⟩

/-- C3 amended: with no active-poll row the handler changes nothing.
    Otherwise — when the matching item, its quiz row and the session
    exist — it records the chosen option (NULL for a retraction), sets
    `is_correct = 1` exactly when a chosen option exists and equals the
    quiz's stored correct index, and deletes the active-poll row; it
    then increments `current_index` by one and calls advance
    (`(pollAnswerStep ...).2 = some sid`, upon which `poll_answer` runs
    `send_next_quiz`) exactly when the session is timed or a chosen
    option is present; an untimed retraction advances nothing. -/
theorem C3_poll_answer_resolution (db : DB) (pid : Nat) (chosen : Option Nat)
    (now : Nat) (out : SendOutcome) :
    (lookupActive db pid = none →
      pollAnswerStep db pid chosen now = (db, none) ∧
      poll_answer db pid chosen now out = (db, [])) ∧
    (∀ row item quiz srow,
      lookupActive db pid = some row →
      findItemByPoll db row.session_id pid = some item →
      findQuiz db item.quiz_id = some quiz →
      findSession db row.session_id = some srow →
      ((pollAnswerStep db pid chosen now).1.items =
        db.items.map (fun it => if it.id = item.id then
          answerUpd chosen quiz.correct now it else it) ∧
       (okFlag chosen quiz.correct = 1 ↔
         ∃ c, chosen = some c ∧ (c : Int) = quiz.correct) ∧
       lookupActive (pollAnswerStep db pid chosen now).1 pid = none) ∧
      ((0 < srow.open_period ∨ chosen.isSome) →
        (pollAnswerStep db pid chosen now).2 = some row.session_id ∧
        findSession (pollAnswerStep db pid chosen now).1 row.session_id =
          some { srow with current_index := srow.current_index + 1 }) ∧
      (¬ (0 < srow.open_period ∨ chosen.isSome) →
        (pollAnswerStep db pid chosen now).2 = none ∧
        findSession (pollAnswerStep db pid chosen now).1 row.session_id =
          some srow)) := by
  constructor
  · intro h
    have h1 : pollAnswerStep db pid chosen now = (db, none) := by
      simp [pollAnswerStep, h]
    exact ⟨h1, by simp [poll_answer, h1]⟩
  · intro row item quiz srow hrow hitem hquiz hsess
    have hsid : srow.id = row.session_id := findSession_id hsess
    have hstep : pollAnswerStep db pid chosen now =
        (let db1 := updateItem db item.id (answerUpd chosen quiz.correct now)
         let db2 := eraseActive db1 pid
         if 0 < srow.open_period ∨ chosen.isSome
         then (bumpIndex db2 row.session_id, some row.session_id)
         else (db2, none)) := by
      simp only [pollAnswerStep, hrow, hitem, hquiz,
        findSession_eraseActive, findSession_updateItem, hsess]
    by_cases hcond : 0 < srow.open_period ∨ chosen.isSome
    · rw [hstep]
      simp only [if_pos hcond]
      refine ⟨⟨rfl, okFlag_eq_one_iff chosen quiz.correct, ?_⟩, ?_, ?_⟩
      · rw [show lookupActive (bumpIndex (eraseActive (updateItem db item.id _) pid)
            row.session_id) pid = lookupActive (eraseActive (updateItem db item.id _) pid) pid
            from rfl]
        exact lookupActive_eraseActive _ _
      · intro _
        refine ⟨trivial, ?_⟩
        rw [findSession_bumpIndex, findSession_eraseActive, findSession_updateItem,
          hsess, Option.map_some']
        rw [if_pos hsid]
      · intro hn
        exact absurd hcond hn
    · rw [hstep]
      simp only [if_neg hcond]
      refine ⟨⟨rfl, okFlag_eq_one_iff chosen quiz.correct, ?_⟩, ?_, ?_⟩
      · exact lookupActive_eraseActive _ _
      · intro hc
        exact absurd hc hcond
      · intro _
        refine ⟨trivial, ?_⟩
        rw [findSession_eraseActive, findSession_updateItem, hsess]

/-- Closed instance of the resolving branch on a timed session. -/
theorem C3_poll_answer_resolution_witness :
    (pollAnswerStep ⟨[⟨1, ['q'], [['a'], ['b']], 0, none, 0, 0⟩],
        [⟨1, 9, 5, 1, 30, 50, none, SState.running, 0⟩],
        [⟨1, 1, 1, some 7, some 50, none, none, none, 0⟩],
        [⟨7, 1, 9⟩], [], 2, 2⟩ 7 (some 0) 60).2 = some 1 ∧
    findSession (pollAnswerStep ⟨[⟨1, ['q'], [['a'], ['b']], 0, none, 0, 0⟩],
        [⟨1, 9, 5, 1, 30, 50, none, SState.running, 0⟩],
        [⟨1, 1, 1, some 7, some 50, none, none, none, 0⟩],
        [⟨7, 1, 9⟩], [], 2, 2⟩ 7 (some 0) 60).1 1 =
      some ⟨1, 9, 5, 1, 30, 50, none, SState.running, 1⟩ := by
  have h := (C3_poll_answer_resolution ⟨[⟨1, ['q'], [['a'], ['b']], 0, none, 0, 0⟩],
      [⟨1, 9, 5, 1, 30, 50, none, SState.running, 0⟩],
      [⟨1, 1, 1, some 7, some 50, none, none, none, 0⟩],
      [⟨7, 1, 9⟩], [], 2, 2⟩ 7 (some 0) 60 SendOutcome.fail).2
    ⟨7, 1, 9⟩ ⟨1, 1, 1, some 7, some 50, none, none, none, 0⟩
    ⟨1, ['q'], [['a'], ['b']], 0, none, 0, 0⟩
    ⟨1, 9, 5, 1, 30, 50, none, SState.running, 0⟩ rfl rfl rfl rfl
  have h2 := h.2.1 (Or.inl (by decide))
  exact ⟨h2.1, h2.2⟩

/-! ## Claim C4: finalization counts -/

/-- On a list of resolved items (every `is_correct` written as 0 or 1,
    and a 1 only with a non-negative chosen option), the code's wrong
    count — answered but not correct — equals `answered - correct`. -/
theorem counts_of_resolved (l : List SessionItem)
    (h : ∀ it ∈ l, (it.is_correct = some 0 ∨ it.is_correct = some 1) ∧
      (it.is_correct = some 1 → ∃ c, it.chosen = some c ∧ 0 ≤ c)) :
    countCorrect l ≤ countAnswered l ∧
    countWrong l = countAnswered l - countCorrect l := by
  induction l with
  | nil => simp [countCorrect, countWrong, countAnswered]
  | cons a t ih =>
    obtain ⟨h1, h2⟩ := h a (List.mem_cons_self a t)
    obtain ⟨ihle, iheq⟩ := ih (fun it hit => h it (List.mem_cons_of_mem a hit))
    simp only [countCorrect, countWrong, countAnswered, List.countP_cons] at ihle iheq ⊢
    rcases h1 with h0 | h1
    · have hc : decide (a.is_correct = some 1) = false := by simp [h0]
      have hw : (isAnswered a && decide (a.is_correct = some 0)) = isAnswered a := by
        simp [h0]
      rw [hc, hw]
      cases hA : isAnswered a <;> simp [countCorrect, countWrong, countAnswered] <;> omega
    · have hc : decide (a.is_correct = some 1) = true := by simp [h1]
      have hA : isAnswered a = true := by
        obtain ⟨c, hcc, hc0⟩ := h2 h1
        simp [isAnswered, hcc, hc0]
      have hw : (isAnswered a && decide (a.is_correct = some 0)) = false := by
        simp [h1]
      rw [hc, hw, hA]
      simp only [if_true, if_false, Bool.false_eq_true]
      omega

/-- C4: on a session whose items are all resolved, finalization emits
    exactly one summary message, whose counts satisfy the claim's
    equations — `wrong = answered - correct` and
    `missed = total - answered` (the code computes
    `missed = total - correct - wrong`) — and marks the session finished
    with the end timestamp. -/
theorem C4_finalize_summary (db : DB) (sid now pid : Nat) (srow : Session)
    (hs : findSession db sid = some srow)
    (hrun : srow.state = SState.running)
    (hdone : (sortedItems db sid).length ≤ srow.current_index)
    (hres : ∀ it ∈ db.items, it.session_id = sid →
      (it.is_correct = some 0 ∨ it.is_correct = some 1) ∧
      (it.is_correct = some 1 → ∃ c, it.chosen = some c ∧ 0 ≤ c)) :
    send_next_quiz db sid now (SendOutcome.ok pid) =
      (updateSession db sid (fun s =>
        { s with state := SState.finished, finished_at := some now }),
       [Msg.summary (sortedItems db sid).length
          (countCorrect (sortedItems db sid))
          (countWrong (sortedItems db sid))
          (((sortedItems db sid).length : Int) -
            (countCorrect (sortedItems db sid) : Int) -
            (countWrong (sortedItems db sid) : Int))]) ∧
    (countWrong (sortedItems db sid) : Int) =
      (countAnswered (sortedItems db sid) : Int) -
        (countCorrect (sortedItems db sid) : Int) ∧
    ((sortedItems db sid).length : Int) -
        (countCorrect (sortedItems db sid) : Int) -
        (countWrong (sortedItems db sid) : Int) =
      ((sortedItems db sid).length : Int) -
        (countAnswered (sortedItems db sid) : Int) := by
  have hresL : ∀ it ∈ sortedItems db sid,
      (it.is_correct = some 0 ∨ it.is_correct = some 1) ∧
      (it.is_correct = some 1 → ∃ c, it.chosen = some c ∧ 0 ≤ c) := by
    intro it hit
    have hmem : it ∈ db.items.filter (fun it => decide (it.session_id = sid)) :=
      (List.perm_insertionSort _ _).mem_iff.mp hit
    obtain ⟨hmem', hsid⟩ := List.mem_filter.mp hmem
    exact hres it hmem' (by simpa using hsid)
  obtain ⟨hle, heq⟩ := counts_of_resolved _ hresL
  have hans_le : countAnswered (sortedItems db sid) ≤ (sortedItems db sid).length :=
    List.countP_le_length _
  refine ⟨?_, by omega, by omega⟩
  simp only [send_next_quiz, hs]
  rw [if_neg (by simp [hrun])]
  rw [dif_neg (by omega)]

/-- Closed instance of finalization on a one-item session answered
    correctly. -/
theorem C4_finalize_summary_witness :
    send_next_quiz ⟨[], [⟨1, 9, 5, 1, 30, 50, none, SState.running, 1⟩],
        [⟨1, 1, 1, some 7, some 50, some 0, some 1, some 55, 0⟩],
        [], [], 2, 2⟩ 1 90 (SendOutcome.ok 8) =
      (updateSession ⟨[], [⟨1, 9, 5, 1, 30, 50, none, SState.running, 1⟩],
          [⟨1, 1, 1, some 7, some 50, some 0, some 1, some 55, 0⟩],
          [], [], 2, 2⟩ 1 (fun s =>
        { s with state := SState.finished, finished_at := some 90 }),
       [Msg.summary 1 1 0 0]) := by
  have h := (C4_finalize_summary ⟨[], [⟨1, 9, 5, 1, 30, 50, none, SState.running, 1⟩],
      [⟨1, 1, 1, some 7, some 50, some 0, some 1, some 55, 0⟩],
      [], [], 2, 2⟩ 1 90 8 ⟨1, 9, 5, 1, 30, 50, none, SState.running, 1⟩
    rfl rfl (by decide) (by decide)).1
  exact h

/-! ## Claim C1: at-most-once resolution of a poll -/

theorem pollAnswerStep_none {db : DB} {pid : Nat} {chosen : Option Nat}
    {now : Nat} (h : lookupActive db pid = none) :
    pollAnswerStep db pid chosen now = (db, none) := by
  simp [pollAnswerStep, h]

theorem poll_answer_none {db : DB} {pid : Nat} {chosen : Option Nat}
    {now : Nat} {out : SendOutcome} (h : lookupActive db pid = none) :
    poll_answer db pid chosen now out = (db, []) := by
  simp [poll_answer, pollAnswerStep_none h]

theorem timeoutStep_none {db : DB} {sid pid now : Nat}
    (h : lookupActive db pid = none) :
    timeoutStep db sid pid now = (db, false) := by
  simp [timeoutStep, h]

theorem timeout_fallback_none {db : DB} {sid pid now : Nat} {out : SendOutcome}
    (h : lookupActive db pid = none) :
    timeout_fallback db sid pid now out = (db, []) := by
  simp [timeout_fallback, timeoutStep_none h]

theorem lookupActive_bumpIndex (db : DB) (sid pid : Nat) :
    lookupActive (bumpIndex db sid) pid = lookupActive db pid := rfl

/-- The three possible shapes of a `send_next_quiz` result: no change,
    finalization (sessions updated, polls untouched), or delivery of a
    fresh poll (sessions untouched, one new active-poll row). -/
theorem send_next_shape (db : DB) (sid now : Nat) (out : SendOutcome) :
    (send_next_quiz db sid now out).1 = db ∨
    ((send_next_quiz db sid now out).1.active_polls = db.active_polls ∧
     (send_next_quiz db sid now out).1.sessions =
       db.sessions.map (fun s => if s.id = sid then
         { s with state := SState.finished, finished_at := some now } else s)) ∨
    (∃ pid' u,
      out = SendOutcome.ok pid' ∧
      (send_next_quiz db sid now out).1.sessions = db.sessions ∧
      (send_next_quiz db sid now out).1.active_polls =
        ⟨pid', sid, u⟩ ::
          db.active_polls.filter (fun r => decide (r.poll_id ≠ pid'))) := by
  cases hfs : findSession db sid with
  | none => left; simp [send_next_quiz, hfs]
  | some srow =>
    by_cases hst : srow.state = SState.running
    · by_cases hlt : srow.current_index < (sortedItems db sid).length
      · cases hq : findQuiz db ((sortedItems db sid)[srow.current_index]).quiz_id with
        | none => left; simp [send_next_quiz, hfs, hst, hlt, hq]
        | some qrow =>
          cases hsan : sanitize_for_poll qrow.question qrow.options
              qrow.explanation with
          | error e => left; simp [send_next_quiz, hfs, hst, hlt, hq, hsan]
          | ok r =>
            cases out with
            | fail => left; simp [send_next_quiz, hfs, hst, hlt, hq, hsan]
            | ok pid' =>
              right; right
              refine ⟨pid', srow.user_id, rfl, ?_, ?_⟩
              · by_cases hop : 0 < srow.open_period <;>
                  simp [send_next_quiz, hfs, hst, hlt, hq, hsan, hop,
                    insertActive, updateItem]
              · by_cases hop : 0 < srow.open_period <;>
                  simp [send_next_quiz, hfs, hst, hlt, hq, hsan, hop,
                    insertActive, updateItem]
      · cases out with
        | fail => left; simp [send_next_quiz, hfs, hst, hlt]
        | ok pid' =>
          right; left
          constructor <;> simp [send_next_quiz, hfs, hst, hlt, updateSession]
    · left; simp [send_next_quiz, hfs, hst]

/-- A poll id absent from the active-poll table stays absent across a
    `send_next_quiz` that delivers only a fresh id. -/
theorem lookupActive_send_next (db : DB) (sid now : Nat) (out : SendOutcome)
    (pid : Nat) (hfresh : FreshForPid out pid)
    (h : lookupActive db pid = none) :
    lookupActive (send_next_quiz db sid now out).1 pid = none := by
  rw [lookupActive_eq_none_iff]
  rw [lookupActive_eq_none_iff] at h
  rcases send_next_shape db sid now out with heq | ⟨hrows, -⟩ | ⟨pid', u, hout, -, hrows⟩
  · rw [heq]; exact h
  · rw [hrows]; exact h
  · rw [hrows]
    intro r hr
    rcases List.mem_cons.mp hr with rfl | hr'
    · subst hout
      exact hfresh
    · exact h r (List.mem_filter.mp hr').1

/-- `send_next_quiz` never changes any session's cursor. -/
theorem findSession_send_next_currentIndex (db : DB) (sid now : Nat)
    (out : SendOutcome) (x : Nat) :
    (findSession (send_next_quiz db sid now out).1 x).map
        (fun s => s.current_index) =
      (findSession db x).map (fun s => s.current_index) := by
  rcases send_next_shape db sid now out with heq | ⟨-, hsess⟩ | ⟨pid', u, -, hsess, -⟩
  · rw [heq]
  · have hfind : findSession (send_next_quiz db sid now out).1 x =
        (findSession db x).map (fun s => if s.id = sid then
          { s with state := SState.finished, finished_at := some now } else s) := by
      unfold findSession
      rw [hsess]
      exact find?_map_of_pred _ _ _
        (fun s => by by_cases h : s.id = sid <;> simp [h])
    rw [hfind, Option.map_map]
    congr 1
    funext s
    by_cases h : s.id = sid <;> simp [h]
  · unfold findSession
    rw [hsess]

theorem timeoutStep_eq (db : DB) (sid pid now : Nat) (row : ActivePoll)
    (hrow : lookupActive db pid = some row) :
    timeoutStep db sid pid now =
      (bumpIndex (eraseActive (match findItemByPoll db sid pid with
        | some item => updateItem db item.id (timeoutUpd now)
        | none => db) pid) sid, true) := by
  simp only [timeoutStep, hrow]

/-- C1: resolution of an outstanding poll happens at most once.  Both
    handlers return without any state change when the active-poll row is
    absent; when it is present, whichever handler runs first deletes the
    row and increments the session cursor by exactly one (for the answer
    handler this is the timed case, `open_period > 0` — the only case in
    which a timeout task exists at all, since `send_next_quiz` schedules
    one only then), after which the other handler finds no row and is a
    no-op, so no second outcome is recorded and `current_index` never
    rises twice for the same poll id. -/
theorem C1_at_most_once (db : DB) (sid pid : Nat) (chosen chosen2 : Option Nat)
    (now now2 : Nat) (out out2 : SendOutcome) :
    (lookupActive db pid = none →
      poll_answer db pid chosen now out = (db, []) ∧
      timeout_fallback db sid pid now out = (db, [])) ∧
    (∀ row item quiz srow,
      lookupActive db pid = some row →
      findItemByPoll db row.session_id pid = some item →
      findQuiz db item.quiz_id = some quiz →
      findSession db row.session_id = some srow →
      0 < srow.open_period →
      FreshForPid out pid →
      lookupActive (poll_answer db pid chosen now out).1 pid = none ∧
      (findSession (poll_answer db pid chosen now out).1 row.session_id).map
        (fun s => s.current_index) = some (srow.current_index + 1) ∧
      ∀ sid2, timeout_fallback (poll_answer db pid chosen now out).1 sid2 pid
        now2 out2 = ((poll_answer db pid chosen now out).1, [])) ∧
    (∀ row srow,
      lookupActive db pid = some row →
      row.session_id = sid →
      findSession db sid = some srow →
      FreshForPid out pid →
      lookupActive (timeout_fallback db sid pid now out).1 pid = none ∧
      (findSession (timeout_fallback db sid pid now out).1 sid).map
        (fun s => s.current_index) = some (srow.current_index + 1) ∧
      poll_answer (timeout_fallback db sid pid now out).1 pid chosen2 now2
        out2 = ((timeout_fallback db sid pid now out).1, [])) := by
  refine ⟨?_, ?_, ?_⟩
  · intro h
    exact ⟨poll_answer_none h, timeout_fallback_none h⟩
  · intro row item quiz srow hrow hitem hquiz hsess hop hfresh
    have hsid : srow.id = row.session_id := findSession_id hsess
    have hcond : 0 < srow.open_period ∨ chosen.isSome := Or.inl hop
    have hpa : poll_answer db pid chosen now out =
        send_next_quiz (bumpIndex (eraseActive (updateItem db item.id
          (answerUpd chosen quiz.correct now)) pid) row.session_id)
          row.session_id now out := by
      simp only [poll_answer, pollAnswerStep, hrow, hitem, hquiz,
        findSession_eraseActive, findSession_updateItem, hsess, if_pos hcond]
    have hnone : lookupActive (bumpIndex (eraseActive (updateItem db item.id
        (answerUpd chosen quiz.correct now)) pid) row.session_id) pid = none := by
      rw [lookupActive_bumpIndex]
      exact lookupActive_eraseActive _ _
    have h1 : lookupActive (poll_answer db pid chosen now out).1 pid = none := by
      rw [hpa]
      exact lookupActive_send_next _ _ _ _ _ hfresh hnone
    refine ⟨h1, ?_, ?_⟩
    · rw [hpa, findSession_send_next_currentIndex]
      rw [findSession_bumpIndex, findSession_eraseActive, findSession_updateItem,
        hsess, Option.map_some', if_pos hsid, Option.map_some']
    · intro sid2
      exact timeout_fallback_none h1
  · intro row srow hrow hrsid hsess hfresh
    have hsid : srow.id = sid := findSession_id hsess
    have ht : timeout_fallback db sid pid now out =
        send_next_quiz (bumpIndex (eraseActive (match findItemByPoll db sid pid with
          | some item => updateItem db item.id (timeoutUpd now)
          | none => db) pid) sid) sid now out := by
      unfold timeout_fallback
      rw [timeoutStep_eq db sid pid now row hrow]
    have hsesseq : (match findItemByPoll db sid pid with
        | some item => updateItem db item.id (timeoutUpd now)
        | none => db).sessions = db.sessions := by
      cases findItemByPoll db sid pid <;> rfl
    have hnone : lookupActive (bumpIndex (eraseActive (match findItemByPoll db sid pid with
        | some item => updateItem db item.id (timeoutUpd now)
        | none => db) pid) sid) pid = none := by
      rw [lookupActive_bumpIndex]
      exact lookupActive_eraseActive _ _
    have h1 : lookupActive (timeout_fallback db sid pid now out).1 pid = none := by
      rw [ht]
      exact lookupActive_send_next _ _ _ _ _ hfresh hnone
    refine ⟨h1, ?_, ?_⟩
    · rw [ht, findSession_send_next_currentIndex, findSession_bumpIndex,
        findSession_eraseActive]
      have : findSession (match findItemByPoll db sid pid with
          | some item => updateItem db item.id (timeoutUpd now)
          | none => db) sid = some srow := by
        unfold findSession
        rw [hsesseq]
        exact hsess
      rw [this, Option.map_some', if_pos hsid, Option.map_some']
    · exact poll_answer_none h1

/-- Closed instance of at-most-once resolution on a timed one-question
    session: a no-op on an unknown poll id, and answer-then-timeout /
    timeout-then-answer on the outstanding poll. -/
theorem C1_at_most_once_witness :
    (poll_answer ⟨[⟨1, ['q'], [['a'], ['b']], 0, none, 0, 0⟩],
        [⟨1, 9, 5, 1, 30, 50, none, SState.running, 0⟩],
        [⟨1, 1, 1, some 7, some 50, none, none, none, 0⟩],
        [⟨7, 1, 9⟩], [(1, 7)], 2, 2⟩ 99 (some 0) 60 SendOutcome.fail =
      (⟨[⟨1, ['q'], [['a'], ['b']], 0, none, 0, 0⟩],
        [⟨1, 9, 5, 1, 30, 50, none, SState.running, 0⟩],
        [⟨1, 1, 1, some 7, some 50, none, none, none, 0⟩],
        [⟨7, 1, 9⟩], [(1, 7)], 2, 2⟩, [])) ∧
    lookupActive (poll_answer ⟨[⟨1, ['q'], [['a'], ['b']], 0, none, 0, 0⟩],
        [⟨1, 9, 5, 1, 30, 50, none, SState.running, 0⟩],
        [⟨1, 1, 1, some 7, some 50, none, none, none, 0⟩],
        [⟨7, 1, 9⟩], [(1, 7)], 2, 2⟩ 7 (some 0) 60 SendOutcome.fail).1 7 = none ∧
    (findSession (poll_answer ⟨[⟨1, ['q'], [['a'], ['b']], 0, none, 0, 0⟩],
        [⟨1, 9, 5, 1, 30, 50, none, SState.running, 0⟩],
        [⟨1, 1, 1, some 7, some 50, none, none, none, 0⟩],
        [⟨7, 1, 9⟩], [(1, 7)], 2, 2⟩ 7 (some 0) 60 SendOutcome.fail).1 1).map
      (fun s => s.current_index) = some 1 ∧
    timeout_fallback (poll_answer ⟨[⟨1, ['q'], [['a'], ['b']], 0, none, 0, 0⟩],
        [⟨1, 9, 5, 1, 30, 50, none, SState.running, 0⟩],
        [⟨1, 1, 1, some 7, some 50, none, none, none, 0⟩],
        [⟨7, 1, 9⟩], [(1, 7)], 2, 2⟩ 7 (some 0) 60 SendOutcome.fail).1 1 7 95
      SendOutcome.fail =
      ((poll_answer ⟨[⟨1, ['q'], [['a'], ['b']], 0, none, 0, 0⟩],
        [⟨1, 9, 5, 1, 30, 50, none, SState.running, 0⟩],
        [⟨1, 1, 1, some 7, some 50, none, none, none, 0⟩],
        [⟨7, 1, 9⟩], [(1, 7)], 2, 2⟩ 7 (some 0) 60 SendOutcome.fail).1, []) := by
  have h0 := (C1_at_most_once ⟨[⟨1, ['q'], [['a'], ['b']], 0, none, 0, 0⟩],
      [⟨1, 9, 5, 1, 30, 50, none, SState.running, 0⟩],
      [⟨1, 1, 1, some 7, some 50, none, none, none, 0⟩],
      [⟨7, 1, 9⟩], [(1, 7)], 2, 2⟩ 1 99 (some 0) none 60 95
      SendOutcome.fail SendOutcome.fail).1 rfl
  have hA := (C1_at_most_once ⟨[⟨1, ['q'], [['a'], ['b']], 0, none, 0, 0⟩],
      [⟨1, 9, 5, 1, 30, 50, none, SState.running, 0⟩],
      [⟨1, 1, 1, some 7, some 50, none, none, none, 0⟩],
      [⟨7, 1, 9⟩], [(1, 7)], 2, 2⟩ 1 7 (some 0) none 60 95
      SendOutcome.fail SendOutcome.fail).2.1
    ⟨7, 1, 9⟩ ⟨1, 1, 1, some 7, some 50, none, none, none, 0⟩
    ⟨1, ['q'], [['a'], ['b']], 0, none, 0, 0⟩
    ⟨1, 9, 5, 1, 30, 50, none, SState.running, 0⟩
    rfl rfl rfl rfl (by decide) trivial
  exact ⟨h0.1, hA.1, hA.2.1, hA.2.2 1⟩

/-! ## Claim C2: the engine invariant and its preservation -/

theorem filter_length_map_items (l : List SessionItem)
    (g : SessionItem → SessionItem)
    (hg : ∀ it, (g it).session_id = it.session_id) (sid : Nat) :
    ((l.map g).filter (fun it => decide (it.session_id = sid))).length =
    (l.filter (fun it => decide (it.session_id = sid))).length := by
  rw [← List.countP_eq_length_filter, ← List.countP_eq_length_filter,
    List.countP_map]
  congr 1
  funext it
  simp [Function.comp, hg it]

theorem countP_filter_le {α : Type} (p q : α → Bool) (l : List α) :
    (l.filter q).countP p ≤ l.countP p := by
  rw [List.countP_filter]
  refine List.countP_mono_left (fun a _ h => ?_)
  simp only [Bool.and_eq_true] at h
  exact h.1

theorem sessions_unique {db : DB} (hInv : Inv db) {s t : Session}
    (hs : s ∈ db.sessions) (ht : t ∈ db.sessions) (hid : s.id = t.id) : s = t :=
  List.inj_on_of_nodup_map hInv.sess_nodup hs ht hid

theorem Inv_mapSessions {db : DB} (hInv : Inv db) (g : Session → Session)
    (hid : ∀ s, (g s).id = s.id) (htot : ∀ s, (g s).total = s.total)
    (hidx : ∀ s, (g s).current_index = s.current_index) :
    Inv { db with sessions := db.sessions.map g } := by
  refine ⟨?_, ?_, ?_, hInv.active_unique, hInv.sched_consistent, ?_, ?_,
    hInv.item_sid_lt⟩
  · intro s' hs'
    obtain ⟨s, hs, rfl⟩ := List.mem_map.mp hs'
    rw [hidx, htot]
    exact hInv.idx_le s hs
  · intro s' hs'
    obtain ⟨s, hs, rfl⟩ := List.mem_map.mp hs'
    rw [htot, hid]
    exact hInv.total_eq s hs
  · intro r hr
    obtain ⟨s, hs, hsid, hslt⟩ := hInv.active_session r hr
    exact ⟨g s, List.mem_map_of_mem g hs, by rw [hid]; exact hsid,
      by rw [hidx, htot]; exact hslt⟩
  · show ((db.sessions.map g).map (fun s => s.id)).Nodup
    rw [List.map_map]
    have hcomp : ((fun s => s.id) ∘ g) = (fun s : Session => s.id) :=
      funext (fun s => hid s)
    rw [hcomp]
    exact hInv.sess_nodup
  · intro s' hs'
    obtain ⟨s, hs, rfl⟩ := List.mem_map.mp hs'
    rw [hid]
    exact hInv.sess_lt s hs

theorem Inv_updateItem {db : DB} (hInv : Inv db) (iid : Nat)
    (f : SessionItem → SessionItem)
    (hf : ∀ it, (f it).session_id = it.session_id) :
    Inv (updateItem db iid f) := by
  have hg : ∀ it, ((fun it => if it.id = iid then f it else it) it).session_id =
      it.session_id := by
    intro it
    by_cases h : it.id = iid <;> simp [h, hf it]
  refine ⟨hInv.idx_le, ?_, hInv.active_session, hInv.active_unique,
    hInv.sched_consistent, hInv.sess_nodup, hInv.sess_lt, ?_⟩
  · intro s hs
    have h1 := hInv.total_eq s hs
    rw [h1]
    exact (filter_length_map_items db.items _ hg s.id).symm
  · intro it' hit'
    obtain ⟨it, hit, rfl⟩ := List.mem_map.mp hit'
    rw [hg]
    exact hInv.item_sid_lt it hit

theorem Inv_eraseActive {db : DB} (hInv : Inv db) (pid : Nat) :
    Inv (eraseActive db pid) := by
  refine ⟨hInv.idx_le, hInv.total_eq, ?_, ?_, ?_, hInv.sess_nodup,
    hInv.sess_lt, hInv.item_sid_lt⟩
  · intro r hr
    exact hInv.active_session r (List.mem_filter.mp hr).1
  · intro sid
    exact le_trans (countP_filter_le _ _ _) (hInv.active_unique sid)
  · intro t ht r hr
    exact hInv.sched_consistent t ht r (List.mem_filter.mp hr).1

theorem Inv_consumeTimeout {db : DB} (hInv : Inv db) (sid pid : Nat) :
    Inv (consumeTimeout db sid pid) := by
  refine ⟨hInv.idx_le, hInv.total_eq, hInv.active_session, hInv.active_unique,
    ?_, hInv.sess_nodup, hInv.sess_lt, hInv.item_sid_lt⟩
  intro t ht r hr
  exact hInv.sched_consistent t (List.mem_of_mem_erase ht) r hr

theorem Inv_quizTable {db : DB} (hInv : Inv db) (qs : List Quiz) :
    Inv { db with quizzes := qs } :=
  ⟨hInv.idx_le, hInv.total_eq, hInv.active_session, hInv.active_unique,
   hInv.sched_consistent, hInv.sess_nodup, hInv.sess_lt, hInv.item_sid_lt⟩

theorem Inv_bumpIndex {db : DB} (hInv : Inv db) (sid : Nat)
    (hlt : ∀ s ∈ db.sessions, s.id = sid → s.current_index < s.total)
    (hnorow : ∀ r ∈ db.active_polls, r.session_id ≠ sid) :
    Inv (bumpIndex db sid) := by
  refine ⟨?_, ?_, ?_, hInv.active_unique, hInv.sched_consistent, ?_, ?_,
    hInv.item_sid_lt⟩
  · intro s' hs'
    obtain ⟨s, hs, rfl⟩ := List.mem_map.mp hs'
    by_cases h : s.id = sid
    · rw [if_pos h]
      exact hlt s hs h
    · rw [if_neg h]
      exact hInv.idx_le s hs
  · intro s' hs'
    obtain ⟨s, hs, rfl⟩ := List.mem_map.mp hs'
    by_cases h : s.id = sid
    · rw [if_pos h]
      exact hInv.total_eq s hs
    · rw [if_neg h]
      exact hInv.total_eq s hs
  · intro r hr
    obtain ⟨s, hs, hsid, hslt⟩ := hInv.active_session r hr
    have hne : s.id ≠ sid := by
      rw [hsid]
      exact hnorow r hr
    refine ⟨(if s.id = sid then { s with current_index := s.current_index + 1 }
      else s), List.mem_map_of_mem _ hs, ?_, ?_⟩
    · rw [if_neg hne]
      exact hsid
    · rw [if_neg hne]
      exact hslt
  · show ((db.sessions.map (fun s : Session =>
        if s.id = sid then { s with current_index := s.current_index + 1 }
        else s)).map (fun s => s.id)).Nodup
    rw [List.map_map]
    have hcomp : ((fun s => s.id) ∘ (fun s : Session =>
        if s.id = sid then { s with current_index := s.current_index + 1 }
        else s)) = (fun s : Session => s.id) := by
      funext s
      by_cases h : s.id = sid <;> simp [h]
    rw [hcomp]
    exact hInv.sess_nodup
  · intro s' hs'
    obtain ⟨s, hs, rfl⟩ := List.mem_map.mp hs'
    by_cases h : s.id = sid
    · rw [if_pos h]
      exact hInv.sess_lt s hs
    · rw [if_neg h]
      exact hInv.sess_lt s hs

theorem Inv_insertActive {db : DB} (hInv : Inv db) (row : ActivePoll)
    (hs : ∃ s ∈ db.sessions, s.id = row.session_id ∧
      s.current_index < s.total)
    (hempty : ∀ r ∈ db.active_polls, r.session_id ≠ row.session_id)
    (hsched : ∀ t ∈ db.timeouts, t.2 ≠ row.poll_id) :
    Inv (insertActive db row) := by
  refine ⟨hInv.idx_le, hInv.total_eq, ?_, ?_, ?_, hInv.sess_nodup,
    hInv.sess_lt, hInv.item_sid_lt⟩
  · intro r hr
    rcases List.mem_cons.mp hr with rfl | hr'
    · exact hs
    · exact hInv.active_session r (List.mem_filter.mp hr').1
  · intro sid
    show ((row :: db.active_polls.filter
      (fun r => decide (r.poll_id ≠ row.poll_id))).countP
      (fun r => decide (r.session_id = sid))) ≤ 1
    rw [List.countP_cons]
    by_cases heq : row.session_id = sid
    · have hzero : (db.active_polls.filter
          (fun r => decide (r.poll_id ≠ row.poll_id))).countP
          (fun r => decide (r.session_id = sid)) = 0 := by
        rw [List.countP_eq_zero]
        intro r hr
        have hmem := (List.mem_filter.mp hr).1
        have hner := hempty r hmem
        rw [heq] at hner
        simpa using hner
      rw [hzero]
      split <;> omega
    · have hfalse : ¬ (decide (row.session_id = sid) = true) := by simp [heq]
      rw [if_neg hfalse]
      have h1 := countP_filter_le (fun r => decide (r.session_id = sid))
        (fun r => decide (r.poll_id ≠ row.poll_id)) db.active_polls
      have h2 := hInv.active_unique sid
      omega
  · intro t ht r hr hpid
    rcases List.mem_cons.mp hr with rfl | hr'
    · exact absurd hpid.symm (hsched t ht)
    · exact hInv.sched_consistent t ht r (List.mem_filter.mp hr').1 hpid

theorem Inv_addTimeout {db : DB} (hInv : Inv db) (sid pid : Nat)
    (hrows : ∀ r ∈ db.active_polls, r.poll_id = pid → r.session_id = sid) :
    Inv { db with timeouts := (sid, pid) :: db.timeouts } := by
  refine ⟨hInv.idx_le, hInv.total_eq, hInv.active_session, hInv.active_unique,
    ?_, hInv.sess_nodup, hInv.sess_lt, hInv.item_sid_lt⟩
  intro t ht r hr hpid
  rcases List.mem_cons.mp ht with rfl | ht'
  · exact hrows r hr hpid
  · exact hInv.sched_consistent t ht' r hr hpid

theorem FreshOut_of_subset (db db' : DB) (out : SendOutcome)
    (hrows : ∀ r ∈ db'.active_polls, r ∈ db.active_polls)
    (htime : ∀ t ∈ db'.timeouts, t ∈ db.timeouts)
    (h : FreshOut db out) : FreshOut db' out := by
  cases out with
  | fail => trivial
  | ok pid =>
    exact ⟨fun r hr => h.1 r (hrows r hr), fun t ht => h.2 t (htime t ht)⟩

theorem Inv_send_next {db : DB} (hInv : Inv db) (sid now : Nat)
    (out : SendOutcome) (hfresh : FreshOut db out)
    (hnorow : ∀ r ∈ db.active_polls, r.session_id ≠ sid) :
    Inv (send_next_quiz db sid now out).1 := by
  cases hfs : findSession db sid with
  | none => simpa [send_next_quiz, hfs] using hInv
  | some srow =>
    by_cases hst : srow.state = SState.running
    · by_cases hlt : srow.current_index < (sortedItems db sid).length
      · cases hq : findQuiz db ((sortedItems db sid)[srow.current_index]).quiz_id with
        | none => simpa [send_next_quiz, hfs, hst, hlt, hq] using hInv
        | some qrow =>
          cases hsan : sanitize_for_poll qrow.question qrow.options
              qrow.explanation with
          | error e => simpa [send_next_quiz, hfs, hst, hlt, hq, hsan] using hInv
          | ok r =>
            cases out with
            | fail => simpa [send_next_quiz, hfs, hst, hlt, hq, hsan] using hInv
            | ok pid' =>
              have hsmem := findSession_mem hfs
              have hsidq := findSession_id hfs
              have htoteq : srow.total = (db.items.filter
                  (fun it => decide (it.session_id = sid))).length := by
                have := hInv.total_eq srow hsmem
                rwa [hsidq] at this
              have hsortlen : (sortedItems db sid).length = (db.items.filter
                  (fun it => decide (it.session_id = sid))).length :=
                (List.perm_insertionSort _ _).length_eq
              have hidxlt : srow.current_index < srow.total := by omega
              have hInv1 := Inv_updateItem hInv
                ((sortedItems db sid)[srow.current_index]).id
                (fun x => { x with poll_id := some pid', sent_at := some now })
                (fun x => rfl)
              have hInv2 := Inv_insertActive hInv1 ⟨pid', sid, srow.user_id⟩
                ⟨srow, hsmem, hsidq, hidxlt⟩ hnorow (fun t ht => hfresh.2 t ht)
              by_cases hop : 0 < srow.open_period
              · have hrows : ∀ rr ∈ (insertActive (updateItem db
                    ((sortedItems db sid)[srow.current_index]).id
                    (fun x => { x with poll_id := some pid', sent_at := some now }))
                    ⟨pid', sid, srow.user_id⟩).active_polls,
                    rr.poll_id = pid' → rr.session_id = sid := by
                  intro rr hrr hpid
                  rcases List.mem_cons.mp hrr with rfl | hrr'
                  · rfl
                  · have hne := (List.mem_filter.mp hrr').2
                    simp only [decide_eq_true_eq] at hne
                    exact absurd hpid hne
                have hInv3 := Inv_addTimeout hInv2 sid pid' hrows
                simpa [send_next_quiz, hfs, hst, hlt, hq, hsan, hop,
                  insertActive, updateItem] using hInv3
              · simpa [send_next_quiz, hfs, hst, hlt, hq, hsan, hop,
                  insertActive, updateItem] using hInv2
      · cases out with
        | fail => simpa [send_next_quiz, hfs, hst, hlt] using hInv
        | ok pid' =>
          have hmap := Inv_mapSessions hInv (fun s =>
            if s.id = sid then
              { s with state := SState.finished, finished_at := some now }
            else s)
            (fun s => by by_cases h : s.id = sid <;> simp [h])
            (fun s => by by_cases h : s.id = sid <;> simp [h])
            (fun s => by by_cases h : s.id = sid <;> simp [h])
          simpa [send_next_quiz, hfs, hst, hlt, updateSession] using hmap
    · simpa [send_next_quiz, hfs, hst] using hInv

theorem Inv_poll_answer {db : DB} (hInv : Inv db) (pid : Nat)
    (chosen : Option Nat) (now : Nat) (out : SendOutcome)
    (hfresh : FreshOut db out) :
    Inv (poll_answer db pid chosen now out).1 := by
  cases hrow : lookupActive db pid with
  | none => simpa [poll_answer, pollAnswerStep_none hrow] using hInv
  | some row =>
    cases hitem : findItemByPoll db row.session_id pid with
    | none => simpa [poll_answer, pollAnswerStep, hrow, hitem] using hInv
    | some item =>
      cases hquiz : findQuiz db item.quiz_id with
      | none => simpa [poll_answer, pollAnswerStep, hrow, hitem, hquiz] using hInv
      | some quiz =>
        have hInv1 := Inv_updateItem hInv item.id
          (answerUpd chosen quiz.correct now) (fun x => rfl)
        have hInv2 := Inv_eraseActive hInv1 pid
        cases hsess : findSession db row.session_id with
        | none =>
          simpa [poll_answer, pollAnswerStep, hrow, hitem, hquiz,
            findSession_eraseActive, findSession_updateItem, hsess] using hInv2
        | some srow =>
          by_cases hcond : 0 < srow.open_period ∨ chosen.isSome
          · have hrmem := lookupActive_mem hrow
            have hrpid := lookupActive_pid hrow
            obtain ⟨s0, hs0, hs0id, hs0lt⟩ := hInv.active_session row hrmem
            have hlt2 : ∀ s ∈ db.sessions, s.id = row.session_id →
                s.current_index < s.total := by
              intro s hs hid
              have heq : s = s0 := sessions_unique hInv hs hs0 (by rw [hid, hs0id])
              rw [heq]
              exact hs0lt
            have hnorow2 : ∀ r ∈ (eraseActive (updateItem db item.id
                (answerUpd chosen quiz.correct now)) pid).active_polls,
                r.session_id ≠ row.session_id := by
              intro r hr hsid
              have hr' : r ∈ db.active_polls := (List.mem_filter.mp hr).1
              have hrpidne : r.poll_id ≠ pid := by
                have := (List.mem_filter.mp hr).2
                simpa using this
              have hne : r ≠ row := by
                intro h
                rw [h] at hrpidne
                exact hrpidne hrpid
              have h2 : 2 ≤ db.active_polls.countP
                  (fun rr => decide (rr.session_id = row.session_id)) :=
                two_le_countP_of_mem hr' hrmem hne (by simp [hsid]) (by simp)
              have h1 := hInv.active_unique row.session_id
              omega
            have hInv3 := Inv_bumpIndex hInv2 row.session_id hlt2 hnorow2
            have hfresh3 : FreshOut (bumpIndex (eraseActive (updateItem db item.id
                (answerUpd chosen quiz.correct now)) pid) row.session_id) out :=
              FreshOut_of_subset db _ out
                (fun r hr => (List.mem_filter.mp hr).1) (fun t ht => ht) hfresh
            have hfinal := Inv_send_next hInv3 row.session_id now out hfresh3 hnorow2
            simpa [poll_answer, pollAnswerStep, hrow, hitem, hquiz,
              findSession_eraseActive, findSession_updateItem, hsess, hcond]
              using hfinal
          · simpa [poll_answer, pollAnswerStep, hrow, hitem, hquiz,
              findSession_eraseActive, findSession_updateItem, hsess, hcond]
              using hInv2

theorem Inv_timeout_fallback {db : DB} (hInv : Inv db) (sid pid now : Nat)
    (out : SendOutcome)
    (hrowsid : ∀ r ∈ db.active_polls, r.poll_id = pid → r.session_id = sid)
    (hfresh : FreshOut db out) :
    Inv (timeout_fallback db sid pid now out).1 := by
  cases hrow : lookupActive db pid with
  | none => simpa [timeout_fallback, timeoutStep_none hrow] using hInv
  | some row =>
    have hrmem := lookupActive_mem hrow
    have hrpid := lookupActive_pid hrow
    have hrsid : row.session_id = sid := hrowsid row hrmem hrpid
    have hrows_eq : (match findItemByPoll db sid pid with
        | some item => updateItem db item.id (timeoutUpd now)
        | none => db).active_polls = db.active_polls := by
      cases findItemByPoll db sid pid <;> rfl
    have htime_eq : (match findItemByPoll db sid pid with
        | some item => updateItem db item.id (timeoutUpd now)
        | none => db).timeouts = db.timeouts := by
      cases findItemByPoll db sid pid <;> rfl
    have hsess_eq : (match findItemByPoll db sid pid with
        | some item => updateItem db item.id (timeoutUpd now)
        | none => db).sessions = db.sessions := by
      cases findItemByPoll db sid pid <;> rfl
    have hInv1 : Inv (match findItemByPoll db sid pid with
        | some item => updateItem db item.id (timeoutUpd now)
        | none => db) := by
      cases findItemByPoll db sid pid with
      | none => exact hInv
      | some item => exact Inv_updateItem hInv item.id (timeoutUpd now) (fun x => rfl)
    have hInv2 := Inv_eraseActive hInv1 pid
    obtain ⟨s0, hs0, hs0id, hs0lt⟩ := hInv.active_session row hrmem
    have hlt2 : ∀ s ∈ db.sessions, s.id = sid → s.current_index < s.total := by
      intro s hs hid
      have heq : s = s0 := sessions_unique hInv hs hs0
        (by rw [hid, hs0id, hrsid])
      rw [heq]
      exact hs0lt
    have hlt2' : ∀ s ∈ (match findItemByPoll db sid pid with
        | some item => updateItem db item.id (timeoutUpd now)
        | none => db).sessions, s.id = sid → s.current_index < s.total := by
      rw [hsess_eq]
      exact hlt2
    have hnorow2 : ∀ r ∈ (eraseActive (match findItemByPoll db sid pid with
        | some item => updateItem db item.id (timeoutUpd now)
        | none => db) pid).active_polls, r.session_id ≠ sid := by
      intro r hr hsid2
      have hr2 : r ∈ (match findItemByPoll db sid pid with
          | some item => updateItem db item.id (timeoutUpd now)
          | none => db).active_polls.filter
          (fun rr : ActivePoll => decide (rr.poll_id ≠ pid)) := hr
      rw [hrows_eq] at hr2
      have hr' : r ∈ db.active_polls := (List.mem_filter.mp hr2).1
      have hrpidne : r.poll_id ≠ pid := by
        have := (List.mem_filter.mp hr2).2
        simpa using this
      have hne : r ≠ row := by
        intro h
        rw [h] at hrpidne
        exact hrpidne hrpid
      have h2 : 2 ≤ db.active_polls.countP
          (fun rr => decide (rr.session_id = sid)) :=
        two_le_countP_of_mem hr' hrmem hne (by simp [hsid2]) (by simp [hrsid])
      have h1 := hInv.active_unique sid
      omega
    have hInv3 := Inv_bumpIndex hInv2 sid hlt2' hnorow2
    have hfresh3 : FreshOut (bumpIndex (eraseActive (match findItemByPoll db sid pid with
        | some item => updateItem db item.id (timeoutUpd now)
        | none => db) pid) sid) out := by
      refine FreshOut_of_subset db _ out ?_ ?_ hfresh
      · intro r hr
        have hr2 : r ∈ (match findItemByPoll db sid pid with
            | some item => updateItem db item.id (timeoutUpd now)
            | none => db).active_polls.filter
            (fun rr : ActivePoll => decide (rr.poll_id ≠ pid)) := hr
        rw [hrows_eq] at hr2
        exact (List.mem_filter.mp hr2).1
      · intro t ht
        have ht2 : t ∈ (match findItemByPoll db sid pid with
            | some item => updateItem db item.id (timeoutUpd now)
            | none => db).timeouts := ht
        rw [htime_eq] at ht2
        exact ht2
    have hfinal := Inv_send_next hInv3 sid now out hfresh3 hnorow2
    unfold timeout_fallback
    rw [timeoutStep_eq db sid pid now row hrow]
    exact hfinal

theorem Inv_beginStep {db : DB} (hInv : Inv db)
    (uid chat_id op now subject chapter : Nat) (shuffled : List Nat) :
    Inv (beginStep db uid chat_id op now subject chapter shuffled).1 := by
  by_cases hpool : poolIds db subject chapter = []
  · simpa [beginStep, hpool] using hInv
  · have hB : (beginStep db uid chat_id op now subject chapter shuffled).1 =
        { quizzes := db.quizzes,
          sessions := db.sessions.map (fun s =>
            if s.user_id = uid ∧ s.state = SState.running
            then { s with state := SState.stopped } else s) ++
            [{ id := db.nextSessionId, user_id := uid, chat_id := chat_id,
               total := shuffled.length, open_period := op, started_at := now,
               finished_at := none, state := SState.running,
               current_index := 0 }],
          items := db.items ++
            newSessionItems db.nextSessionId db.nextItemId shuffled,
          active_polls := db.active_polls,
          timeouts := db.timeouts,
          nextSessionId := db.nextSessionId + 1,
          nextItemId := db.nextItemId + shuffled.length } := by
      simp only [beginStep]
      rw [if_neg hpool]
      rfl
    rw [hB]
    have hid : ∀ s : Session, ((fun s : Session =>
        if s.user_id = uid ∧ s.state = SState.running
        then { s with state := SState.stopped } else s) s).id = s.id := by
      intro s
      by_cases h : s.user_id = uid ∧ s.state = SState.running <;> simp [h]
    have htot : ∀ s : Session, ((fun s : Session =>
        if s.user_id = uid ∧ s.state = SState.running
        then { s with state := SState.stopped } else s) s).total = s.total := by
      intro s
      by_cases h : s.user_id = uid ∧ s.state = SState.running <;> simp [h]
    have hidx : ∀ s : Session, ((fun s : Session =>
        if s.user_id = uid ∧ s.state = SState.running
        then { s with state := SState.stopped } else s) s).current_index =
        s.current_index := by
      intro s
      by_cases h : s.user_id = uid ∧ s.state = SState.running <;> simp [h]
    have hnewsid : ∀ it ∈ newSessionItems db.nextSessionId db.nextItemId shuffled,
        it.session_id = db.nextSessionId := by
      intro it hit
      unfold newSessionItems at hit
      obtain ⟨p, -, rfl⟩ := List.mem_map.mp hit
      rfl
    have hnewlen : (newSessionItems db.nextSessionId db.nextItemId shuffled).length =
        shuffled.length := by
      unfold newSessionItems
      rw [List.length_map, List.enum_length]
    refine ⟨?_, ?_, ?_, hInv.active_unique, hInv.sched_consistent, ?_, ?_, ?_⟩
    · intro s' hs'
      rcases List.mem_append.mp hs' with h | h
      · obtain ⟨s, hs, rfl⟩ := List.mem_map.mp h
        rw [hidx, htot]
        exact hInv.idx_le s hs
      · rw [List.mem_singleton.mp h]
        exact Nat.zero_le _
    · intro s' hs'
      rw [List.filter_append, List.length_append]
      rcases List.mem_append.mp hs' with h | h
      · obtain ⟨s, hs, rfl⟩ := List.mem_map.mp h
        have hnew0 : ((newSessionItems db.nextSessionId db.nextItemId
            shuffled).filter (fun it => decide (it.session_id =
            ((fun s : Session => if s.user_id = uid ∧ s.state = SState.running
              then { s with state := SState.stopped } else s) s).id))).length
            = 0 := by
          rw [List.length_eq_zero, List.filter_eq_nil_iff]
          intro it hit
          have h1 := hnewsid it hit
          have h2 := hInv.sess_lt s hs
          rw [hid]
          simp only [decide_eq_true_eq, h1]
          omega
        rw [hnew0, htot, hid]
        have := hInv.total_eq s hs
        omega
      · rw [List.mem_singleton.mp h]
        have hold0 : ((db.items.filter (fun it => decide (it.session_id =
            db.nextSessionId)))).length = 0 := by
          rw [List.length_eq_zero, List.filter_eq_nil_iff]
          intro it hit
          have := hInv.item_sid_lt it hit
          simp only [decide_eq_true_eq]
          omega
        have hnewall : ((newSessionItems db.nextSessionId db.nextItemId
            shuffled).filter (fun it => decide (it.session_id =
            db.nextSessionId))) =
            newSessionItems db.nextSessionId db.nextItemId shuffled := by
          rw [List.filter_eq_self]
          intro it hit
          simp [hnewsid it hit]
        show shuffled.length = _ + _
        rw [hold0, hnewall, hnewlen]
        omega
    · intro r hr
      obtain ⟨s, hs, hsid, hslt⟩ := hInv.active_session r hr
      refine ⟨(fun s : Session => if s.user_id = uid ∧ s.state = SState.running
        then { s with state := SState.stopped } else s) s,
        List.mem_append_left _ (List.mem_map_of_mem _ hs), ?_, ?_⟩
      · rw [hid]; exact hsid
      · rw [hidx, htot]; exact hslt
    · show ((db.sessions.map (fun s : Session =>
        if s.user_id = uid ∧ s.state = SState.running
        then { s with state := SState.stopped } else s) ++
        [newSession db uid chat_id op now shuffled]).map
        (fun s : Session => s.id)).Nodup
      rw [List.map_append, List.map_map]
      have hcomp : ((fun s : Session => s.id) ∘ (fun s : Session =>
          if s.user_id = uid ∧ s.state = SState.running
          then { s with state := SState.stopped } else s)) =
          (fun s : Session => s.id) := funext (fun s => hid s)
      rw [hcomp]
      rw [List.nodup_append]
      refine ⟨hInv.sess_nodup, List.nodup_singleton _, ?_⟩
      intro a ha hb
      obtain ⟨s, hs, rfl⟩ := List.mem_map.mp ha
      have h1 := hInv.sess_lt s hs
      have h2 : s.id = db.nextSessionId := by simpa using hb
      omega
    · intro s' hs'
      rcases List.mem_append.mp hs' with h | h
      · obtain ⟨s, hs, rfl⟩ := List.mem_map.mp h
        rw [hid]
        exact Nat.lt_succ_of_lt (hInv.sess_lt s hs)
      · rw [List.mem_singleton.mp h]
        exact Nat.lt_succ_self _
    · intro it hit
      rcases List.mem_append.mp hit with h | h
      · exact Nat.lt_succ_of_lt (hInv.item_sid_lt it h)
      · rw [hnewsid it h]
        exact Nat.lt_succ_self _

theorem Inv_begin_quiz_session {db : DB} (hInv : Inv db)
    (uid chat_id op now subject chapter : Nat) (shuffled : List Nat)
    (out : SendOutcome) (hfresh : FreshOut db out) :
    Inv (begin_quiz_session db uid chat_id op now subject chapter
      shuffled out).1 := by
  by_cases hpool : poolIds db subject chapter = []
  · have h1 : beginStep db uid chat_id op now subject chapter shuffled =
        (db, none) := by
      simp [beginStep, hpool]
    simpa [begin_quiz_session, h1] using hInv
  · have hsid : (beginStep db uid chat_id op now subject chapter shuffled).2 =
        some db.nextSessionId := by
      simp only [beginStep]
      rw [if_neg hpool]
    have hpair : beginStep db uid chat_id op now subject chapter shuffled =
        ((beginStep db uid chat_id op now subject chapter shuffled).1,
         some db.nextSessionId) := by
      rw [← hsid]
    have hrows_eq : (beginStep db uid chat_id op now subject chapter
        shuffled).1.active_polls = db.active_polls := by
      simp only [beginStep]
      rw [if_neg hpool]
      rfl
    have htime_eq : (beginStep db uid chat_id op now subject chapter
        shuffled).1.timeouts = db.timeouts := by
      simp only [beginStep]
      rw [if_neg hpool]
      rfl
    have hInvB := Inv_beginStep hInv uid chat_id op now subject chapter shuffled
    have hnorow : ∀ r ∈ (beginStep db uid chat_id op now subject chapter
        shuffled).1.active_polls, r.session_id ≠ db.nextSessionId := by
      intro r hr hsid2
      rw [hrows_eq] at hr
      obtain ⟨s, hs, hsid3, -⟩ := hInv.active_session r hr
      have h1 := hInv.sess_lt s hs
      rw [hsid2] at hsid3
      omega
    have hfreshB : FreshOut (beginStep db uid chat_id op now subject chapter
        shuffled).1 out := by
      refine FreshOut_of_subset db _ out ?_ ?_ hfresh
      · intro r hr
        rw [hrows_eq] at hr
        exact hr
      · intro t ht
        rw [htime_eq] at ht
        exact ht
    have hfin := Inv_send_next hInvB db.nextSessionId now out hfreshB hnorow
    unfold begin_quiz_session
    rw [hpair]
    exact hfin

theorem Inv_stop_cmd {db : DB} (hInv : Inv db) (uid : Nat) :
    Inv (stop_cmd db uid) :=
  Inv_mapSessions hInv
    (fun s => if s.user_id = uid ∧ s.state = SState.running
      then { s with state := SState.stopped } else s)
    (fun s => by
      by_cases h : s.user_id = uid ∧ s.state = SState.running <;> simp [h])
    (fun s => by
      by_cases h : s.user_id = uid ∧ s.state = SState.running <;> simp [h])
    (fun s => by
      by_cases h : s.user_id = uid ∧ s.state = SState.running <;> simp [h])

theorem step_preserves_Inv {db db' : DB} (hInv : Inv db)
    (hstep : Step db db') : Inv db' := by
  cases hstep with
  | beginSession uid chat_id op now subject chapter shuffled out hperm hfresh =>
    exact Inv_begin_quiz_session hInv uid chat_id op now subject chapter
      shuffled out hfresh
  | answer pid chosen now out hfresh =>
    exact Inv_poll_answer hInv pid chosen now out hfresh
  | timeoutFire sid pid now out hsched hfresh =>
    refine Inv_timeout_fallback (Inv_consumeTimeout hInv sid pid) sid pid now
      out ?_ ?_
    · intro r hr hpid
      exact hInv.sched_consistent (sid, pid) hsched r hr hpid
    · refine FreshOut_of_subset db (consumeTimeout db sid pid) out
        (fun r hr => hr) ?_ hfresh
      intro t ht
      exact List.mem_of_mem_erase ht
  | stopAll uid => exact Inv_stop_cmd hInv uid
  | quizTable qs => exact Inv_quizTable hInv qs

theorem reachable_Inv {db : DB} (h : Reachable db) : Inv db := by
  induction h with
  | init =>
    refine ⟨?_, ?_, ?_, ?_, ?_, ?_, ?_, ?_⟩ <;> simp [initDB]
  | step hr hstep ih => exact step_preserves_Inv ih hstep

/-- **C2.** In every database state reachable through the session engine,
    a session's `current_index` never exceeds its `total`; calling advance
    (`send_next_quiz`) on a running session whose cursor has reached its
    total finalizes it exactly once — it sets the state to `finished` with
    the finish timestamp and emits a single summary message — and calling
    advance on a session whose state is not `running` (in particular an
    already finished one) changes nothing and sends nothing, so the
    summary can never be re-sent. -/
theorem C2_cursor_and_finalize {db : DB} (hdb : Reachable db)
    (sid now pid : Nat) :
    (∀ s ∈ db.sessions, s.current_index ≤ s.total) ∧
    (∀ srow, findSession db sid = some srow →
      srow.state = SState.running → srow.total ≤ srow.current_index →
      send_next_quiz db sid now (SendOutcome.ok pid) =
        (updateSession db sid (fun s =>
           { s with state := SState.finished, finished_at := some now }),
         [Msg.summary (sortedItems db sid).length
            (countCorrect (sortedItems db sid))
            (countWrong (sortedItems db sid))
            (((sortedItems db sid).length : Int) -
              (countCorrect (sortedItems db sid) : Int) -
              (countWrong (sortedItems db sid) : Int))])) ∧
    (∀ srow (out : SendOutcome), findSession db sid = some srow →
      srow.state ≠ SState.running →
      send_next_quiz db sid now out = (db, [])) := by
  have hInv := reachable_Inv hdb
  refine ⟨hInv.idx_le, ?_, ?_⟩
  · intro srow hfs hrun hge
    have hmem := findSession_mem hfs
    have h1 := hInv.total_eq srow hmem
    rw [findSession_id hfs] at h1
    have h2 : (sortedItems db sid).length =
        (db.items.filter (fun it => decide (it.session_id = sid))).length :=
      (List.perm_insertionSort _ _).length_eq
    have hnlt : ¬ srow.current_index < (sortedItems db sid).length := by
      omega
    simp only [send_next_quiz, hfs]
    rw [if_neg (by simp [hrun])]
    rw [dif_neg hnlt]
  · intro srow out hfs hst
    simp only [send_next_quiz, hfs]
    rw [if_pos hst]

/-- The concrete run reaches `C2db` through engine events. -/
theorem C2db_reachable : Reachable C2db :=
  Reachable.step
    (Reachable.step
      (Reachable.step Reachable.init (Step.quizTable initDB [C2quiz]))
      (Step.beginSession C2db1 9 5 0 50 0 0 [1] (SendOutcome.ok 7)
        (by decide) (by decide)))
    (Step.answer C2db2 7 (some 0) 60 SendOutcome.fail trivial)

/-- Witness for C2 at the concrete reachable state `C2db`: the session
    row is running with cursor 1 = total 1, every session respects the
    cursor bound, and a retried advance finalizes with the single summary
    `1 total, 1 correct, 0 wrong, 0 missed`. -/
theorem C2_cursor_and_finalize_witness :
    findSession C2db 1 = some
      { id := 1, user_id := 9, chat_id := 5, total := 1, open_period := 0,
        started_at := 50, finished_at := none, state := SState.running,
        current_index := 1 } ∧
    (∀ s ∈ C2db.sessions, s.current_index ≤ s.total) ∧
    (send_next_quiz C2db 1 70 (SendOutcome.ok 8)).2 =
      [Msg.summary 1 1 0 0] := by
  have hfs : findSession C2db 1 = some
      { id := 1, user_id := 9, chat_id := 5, total := 1, open_period := 0,
        started_at := 50, finished_at := none, state := SState.running,
        current_index := 1 } := by decide
  have h := C2_cursor_and_finalize C2db_reachable 1 70 8
  refine ⟨hfs, h.1, ?_⟩
  rw [h.2.1 _ hfs rfl (by decide)]
  decide

end QuizBot
